import Mathlib

/-!
# InternalQuote: the pricing rules of `monthlyCalculators.js` and `Dashboard.js`

A shallow embedding of the calculators of the quote tool, and the properties
of them that the specification states.

Conventions of the embedding.

* JavaScript numbers that the calculators handle are integers (transaction
  averages, headcounts, certificate counts, dollar rates); they are embedded
  as `Int`.  The decimal constants of the source (`0.85`, `0.425`, `0.5`, the
  discount percentages) are embedded as the exact rationals they denote, and
  the products and sums formed with them are exact, in `ℚ`.  The source
  computes them in binary64; the section on the arithmetic of the source
  gives the binary64 computation of the account rate, which differs from the
  exact one on some averages whose deposits exceed the total and is the one
  that speaks for the code there.
* `parseInt(x, 10)` returns an integer or `NaN`.  A value of type
  `Option Int` stands for the result of `parseInt`, `none` being `NaN`.
  The calculators that receive an average (a number that is already an
  integer) take it as an `Int`: `parseInt(n, 10) || 0` is `n` for such a value.
* The empty string `''` that some calculators return in place of a number is
  `none` in an `Option` result.
* `%` is the remainder of JavaScript, which truncates towards zero: `Int.tmod`.
* A field of a period record is the string of a number input, or was never
  written.  It is embedded by what the code reads of it (`FieldValue`): whether
  it is `undefined` or empty, its reading by `Number` and its reading by
  `parseInt`.
* An object used as a map (`transactions`, `monthlyData`) is the list of its
  keys with their values; the keys of the object `accountErrors` are the values
  of the type `ErrorKey`.
* What the components read from the clock or from their state (`new Date()`,
  `newAccountChecks`, `frequency`) is a parameter of the embedded function.
-/

namespace InternalQuote

/-! ## Values -/

/-- The idiom `parseInt(x, 10) || 0`: `NaN` (and `0`) become `0`. -/
def parseIntOrZero (parsed : Option Int) : Int :=
  match parsed with
  | none => 0
  | some n => if n = 0 then 0 else n

/-! ## Bookkeeping calculators (`monthlyCalculators.js`) -/

/-- Round up to the nearest 0 or 5: `roundUpToNearestFiveOrZero(value)`. -/
def roundUpToNearestFiveOrZero (value : Int) : Int :=
  if value = 0 then 0
  else
    let ones := Int.tmod value 10
    if ones = 0 ∨ ones = 5 then value
    else if ones < 5 then value + (5 - ones)
    else value + (10 - ones)

/-- Flat fee by account position: `calculateBooksFlatFee(accountIndex)`. -/
def calculateBooksFlatFee (accountIndex : Nat) : Int :=
  if accountIndex = 0 then 25
  else if accountIndex = 1 ∨ accountIndex = 2 then 20
  else 15

/-- The account types billed a flat fee: `['Jobox', 'Paypal', 'Amazon']`. -/
def flatFeeTypes : List String := ["Jobox", "Paypal", "Amazon"]

/-- Transaction fees: `calculateTransactionFees(averageTotal, averageDeposits,
accountType)`, the averages being integers, in exact arithmetic.  The binary64
arithmetic of the source is `calculateTransactionFees64`; the two can differ
when the deposits exceed the total. -/
def calculateTransactionFees (averageTotal averageDeposits : Int) (accountType : String) : ℚ :=
  let total : Int := parseIntOrZero (some averageTotal)
  let depositsNum : Int := parseIntOrZero (some averageDeposits)
  if total = 0 then 0
  else if accountType ∈ flatFeeTypes then 0
  else if total > 150 ∧ (depositsNum : ℚ) ≥ (total : ℚ) * 0.5 then
    (depositsNum : ℚ) * 0.425 + ((total - depositsNum : Int) : ℚ) * 0.85
  else
    (total : ℚ) * 0.85

/-- Monthly rate of one account: `calculateBooksAccountRate(accountIndex,
accountType, averageTotal, averageDeposits, averageChecks)`, in exact
arithmetic; `calculateBooksAccountRate64` is the same in binary64. -/
def calculateBooksAccountRate (accountIndex : Nat) (accountType : String)
    (averageTotal averageDeposits _averageChecks : Int) : Int :=
  if accountType ∈ flatFeeTypes then 55
  else
    let flatFee := calculateBooksFlatFee accountIndex
    let transactionFees := calculateTransactionFees averageTotal averageDeposits accountType
    let total : ℚ := (flatFee : ℚ) + transactionFees
    roundUpToNearestFiveOrZero (Int.ceil total)

/-- A field of a period record as the code reads it.  It was never written
(`undefined`), or it holds the string of a number input: the empty string, or a
non-empty string known by its two readings, `Number(value)` and
`parseInt(value, 10)`, each `none` when the reading is `NaN`. -/
inductive FieldValue where
  | undefined : FieldValue
  | empty : FieldValue
  | text (number : Option ℚ) (parsed : Option Int) : FieldValue
  deriving DecidableEq, Repr

/-- The reading `parseInt(value, 10)` of a field. -/
def FieldValue.parseInt : FieldValue → Option Int
  | FieldValue.undefined => none
  | FieldValue.empty => none
  | FieldValue.text _ parsed => parsed

/-- The reading `Number(value)` of a field: `Number(undefined)` is `NaN` and
`Number('')` is 0. -/
def FieldValue.toNumber : FieldValue → Option ℚ
  | FieldValue.undefined => none
  | FieldValue.empty => some 0
  | FieldValue.text number _ => number

/-- The record of one period: `{ total, deposits, checks }`. -/
structure MonthRecord where
  total : FieldValue
  deposits : FieldValue
  checks : FieldValue
  deriving DecidableEq, Repr

/-- The empty record `{}`. -/
def MonthRecord.none : MonthRecord :=
  { total := FieldValue.undefined, deposits := FieldValue.undefined,
    checks := FieldValue.undefined }

/-- The averages of an account: `{ total, deposits, checks }`. -/
structure Averages where
  total : Int
  deposits : Int
  checks : Int
  deriving DecidableEq, Repr

/-- What `calculateAccountData(account, accountIdx)` returns:
`{ averages, rate }`. -/
structure AccountData where
  averages : Averages
  rate : Int
  deriving DecidableEq, Repr

/-- A bank account row of the books section (`BooksSection.js`); the object
`transactions` is the list of its month names with their records. -/
structure Account where
  bankName : String
  lastFour : String
  accountType : String
  startingMonth : String
  removedMonths : List Nat
  transactions : List (String × MonthRecord)
  deriving DecidableEq, Repr

/-- The row a new account starts from: `initialAccount`. -/
def initialAccount : Account :=
  { bankName := "", lastFour := "", accountType := "Checking", startingMonth := "",
    removedMonths := [], transactions := [] }

/-- The test `!!newAccountChecks[idx]`: a slot of the flag array is `true`,
`false` or was never assigned (`none`), and an index past the end reads as
`undefined`. -/
def isNewAccount (newAccountChecks : List (Option Bool)) (idx : Nat) : Bool :=
  match newAccountChecks.get? idx with
  | some (some b) => b
  | _ => false

/-- The constant `effectiveTotal` of `calculateTotalBooksRate`:
`Math.max(enteredTotal, 30)`. -/
def effectiveTotal (enteredTotal : Int) : Int := max enteredTotal 30

/-- The constant `effectiveDeposits` of `calculateTotalBooksRate`:
`enteredTotal > 30 ? calc.averages.deposits : 0`. -/
def effectiveDeposits (calcData : AccountData) : Int :=
  if calcData.averages.total > 30 then calcData.averages.deposits else 0

/-- The constant `effectiveChecks` of `calculateTotalBooksRate`:
`enteredTotal > 30 ? calc.averages.checks : 0`. -/
def effectiveChecks (calcData : AccountData) : Int :=
  if calcData.averages.total > 30 then calcData.averages.checks else 0

/-- The variable `rate` of the callback that `calculateTotalBooksRate` passes to
`accounts.reduce`, for the account `acc` at position `idx`. -/
def accountRate (newAccountChecks : List (Option Bool))
    (calculateAccountDataFunc : Account → Nat → AccountData) (acc : Account) (idx : Nat) : Int :=
  if isNewAccount newAccountChecks idx then
    let calcData := calculateAccountDataFunc acc idx
    let enteredTotal := calcData.averages.total
    calculateBooksAccountRate idx acc.accountType (effectiveTotal enteredTotal)
      (effectiveDeposits calcData) (effectiveChecks calcData)
  else
    let calcData := calculateAccountDataFunc acc idx
    calcData.rate

/-- The reduction `array.reduce((sum, x, idx) => step(sum, x, idx), init)`, the
elements of `xs` standing at the positions `idx`, `idx + 1`, ... -/
def reduceWithIndex {α β : Type} (step : β → α → Nat → β) : List α → Nat → β → β
  | [], _, sum => sum
  | x :: xs, idx, sum => reduceWithIndex step xs (idx + 1) (step sum x idx)

/-- Total books rate with the $110 minimum: `calculateTotalBooksRate(accounts,
newAccountChecks, calculateAccountDataFunc)`. -/
def calculateTotalBooksRate (accounts : List Account) (newAccountChecks : List (Option Bool))
    (calculateAccountDataFunc : Account → Nat → AccountData) : Int :=
  let totalRate := reduceWithIndex
    (fun sum acc idx => sum + accountRate newAccountChecks calculateAccountDataFunc acc idx)
    accounts 0 0
  max totalRate 110

/-- Averages of the transaction data of an account:
`calculateAccountAverages(transactionData)`; `none` is an absent argument. -/
def calculateAccountAverages (transactionData : Option (List MonthRecord)) : Averages :=
  match transactionData with
  | none => { total := 0, deposits := 0, checks := 0 }
  | some data =>
    if data.length = 0 then { total := 0, deposits := 0, checks := 0 }
    else
      let totals : Averages := data.foldl (fun acc month =>
        { total := acc.total + parseIntOrZero month.total.parseInt
          deposits := acc.deposits + parseIntOrZero month.deposits.parseInt
          checks := acc.checks + parseIntOrZero month.checks.parseInt })
        { total := 0, deposits := 0, checks := 0 }
      let count : Nat := data.length
      { total := roundUpToNearestFiveOrZero (Int.ceil ((totals.total : ℚ) / (count : ℚ)))
        deposits := roundUpToNearestFiveOrZero (Int.ceil ((totals.deposits : ℚ) / (count : ℚ)))
        checks := roundUpToNearestFiveOrZero (Int.ceil ((totals.checks : ℚ) / (count : ℚ))) }

/-- Whether deposits are required: `isDepositsRequired(averageTotal)`. -/
def isDepositsRequired (averageTotal : Int) : Bool :=
  decide (averageTotal > 150)

/-- Whether checks are required: `isChecksRequired(averageTotal, accountType)`. -/
def isChecksRequired (averageTotal : Int) (accountType : String) : Bool :=
  if accountType ≠ "Checking" ∧ accountType ≠ "Savings" then false
  else decide (averageTotal > 50)

/-! ## Payroll and sales tax calculators (`monthlyCalculators.js`) -/

/-- Monthly payroll rate: `calculatePayrollRate(employees)`, on the result
`n = parseInt(employees, 10)`. -/
def calculatePayrollRate (employees : Option Int) : Option Int :=
  match employees with
  | none => none
  | some n =>
    if n = 0 ∨ n < 1 then none
    else
      let total : Int := 0
      let total := if n ≥ 1 then total + 75 else total
      let total := if n ≥ 2 then total + 20 * min 2 (n - 1) else total
      let total := if n ≥ 4 then total + 15 * (n - 3) else total
      some total

/-- The `for (let i = 1; i <= certs; i++)` loop of `calculateSalesTaxRates`, with
`remaining` iterations still to run, on the pair `(totalCerts, rowTotal)`. -/
def certLoop : Nat → Nat × Nat → Nat × Nat
  | 0, state => state
  | remaining + 1, (totalCerts, rowTotal) =>
    let totalCerts := totalCerts + 1
    let rowTotal :=
      if totalCerts ≤ 5 then rowTotal + 90
      else if totalCerts ≤ 10 then rowTotal + 75
      else rowTotal + 60
    certLoop remaining (totalCerts, rowTotal)

/-- The `certRows.map(...)` of `calculateSalesTaxRates`, the counter
`totalCerts` being carried from one row to the next. -/
def salesTaxRows : List (Option Int) → Nat → List Nat
  | [], _ => []
  | certStr :: rest, totalCerts =>
    let certs := parseIntOrZero certStr
    let state := certLoop certs.toNat (totalCerts, 0)
    state.2 :: salesTaxRows rest state.1

/-- Rates per row from the certificate counts per row:
`calculateSalesTaxRates(certRows)`, each entry of `certRows` given by its
`parseInt` result. -/
def calculateSalesTaxRates (certRows : List (Option Int)) : List Nat :=
  salesTaxRows certRows 0

/-! ## Annual pricing (`Dashboard.js`) -/

/-- Annual discount percentage: `calculateAnnualDiscount(totalAnnualRate)`. -/
def calculateAnnualDiscount (totalAnnualRate : Int) : ℚ :=
  if totalAnnualRate < 660 then 0
  else if totalAnnualRate ≥ 660 ∧ totalAnnualRate < 990 then 0.09
  else if totalAnnualRate ≥ 990 ∧ totalAnnualRate < 1190 then 0.12
  else if totalAnnualRate ≥ 1190 ∧ totalAnnualRate < 1460 then 0.15
  else if totalAnnualRate ≥ 1460 ∧ totalAnnualRate < 1700 then 0.17
  else if totalAnnualRate ≥ 1700 ∧ totalAnnualRate < 2800 then 0.20
  else if totalAnnualRate ≥ 2800 ∧ totalAnnualRate < 3000 then 0.22
  else if totalAnnualRate ≥ 3000 then 0.25
  else 0

/-- Round down to the nearest 5 or 0: `roundDownToNearest5(amount)`. -/
def roundDownToNearest5 (amount : ℚ) : Int :=
  Int.floor (amount / 5) * 5

/-- What `getAnnualPricingData()` returns. -/
structure AnnualPricing where
  totalAnnualRate : Int
  discountPercentage : ℚ
  discountAmount : Int
  discountedRate : Int

/-- Discount amount and discounted rate: `getAnnualPricingData()`, as a function
of the value `calculateTotalAnnualRate()` that it reads. -/
def getAnnualPricingData (totalAnnualRate : Int) : AnnualPricing :=
  let discountPercentage := calculateAnnualDiscount totalAnnualRate
  let rawDiscountAmount : ℚ := (totalAnnualRate : ℚ) * discountPercentage
  let discountAmount := roundDownToNearest5 rawDiscountAmount
  let discountedRate := totalAnnualRate - discountAmount
  { totalAnnualRate := totalAnnualRate
    discountPercentage := discountPercentage
    discountAmount := discountAmount
    discountedRate := discountedRate }

/-! ## Reference definitions, worded as the specification words them -/

/-- The base fee by position: 25 for index 0, 20 for index 1 or 2, 15 for
index 3 and beyond. -/
def specBaseFee (index : Nat) : Int :=
  if 3 ≤ index then 15 else if index = 0 then 25 else 20

/-- The transaction fee of a volume-based account with a positive average
total: deposits at 0.425 and the rest at 0.85 when the average total exceeds
150 and deposits are at least half of it, everything at 0.85 otherwise. -/
def specTransactionFee (averageTotal averageDeposits : Int) : ℚ :=
  if averageTotal > 150 ∧ (averageDeposits : ℚ) ≥ 0.5 * (averageTotal : ℚ) then
    (averageDeposits : ℚ) * 0.425 + ((averageTotal : ℚ) - (averageDeposits : ℚ)) * 0.85
  else
    (averageTotal : ℚ) * 0.85

/-- The unit price of a certificate by the value of the global counter: 90 up
to 5, 75 from 6 to 10, 60 above 10. -/
def specUnitPrice (counter : Nat) : Nat :=
  if counter ≤ 5 then 90 else if 6 ≤ counter ∧ counter ≤ 10 then 75 else 60

/-- The sum of the unit prices of the counter values `before + 1`, ...,
`before + count`. -/
def specRowRate (before count : Nat) : Nat :=
  ((List.range count).map fun j => specUnitPrice (before + (j + 1))).sum

/-! ## Setup fees and section totals (`monthlyCalculators.js`, `PayrollSection.js`) -/

/-- Payroll setup fee: `calculatePayrollSetup(type)`. -/
def calculatePayrollSetup (type : String) : Option Int :=
  if type = "New" then some 150 else none

/-- Sales tax setup fee: `calculateSalesTaxSetup(type, certificates)`, on the
result `num = parseInt(certificates, 10)`. -/
def calculateSalesTaxSetup (type : String) (certificates : Option Int) : Option Int :=
  if type = "New" then
    match certificates with
    | some num => if num > 0 then some (150 * num) else some 150
    | none => some 150
  else none

/-- The idiom `s ? Number(s) : 0` on a result that is a number or `''`. -/
def numberOrZero (s : Option Int) : Int :=
  match s with
  | some v => if v ≠ 0 then v else 0
  | none => 0

/-- A row of the payroll section: `{ state, employees, type }`, `employees`
given by its `parseInt` result. -/
structure PayrollRow where
  state : String
  employees : Option Int
  type : String
  deriving DecidableEq, Repr

/-- The constant `totalSetup` of `PayrollSection.js`: the setup fees of all rows
added up. -/
def totalSetup (rows : List PayrollRow) : Int :=
  rows.foldl (fun sum row =>
    let s := calculatePayrollSetup row.type
    sum + numberOrZero s) 0

/-- The integer `r` is the least multiple of 5 that is at least `x`. -/
def IsLeastMultipleOfFive (r : Int) (x : ℚ) : Prop :=
  5 ∣ r ∧ x ≤ (r : ℚ) ∧ ∀ m : Int, 5 ∣ m → x ≤ (m : ℚ) → r ≤ m

/-- The value a field of a period record counts for in a sum: its integer
reading, 0 when the field is missing or not a number. -/
def fieldCount (field : FieldValue) : Int := parseIntOrZero field.parseInt

/-! ## Periods and validation of an account (`BooksSection.js`) -/

/-- The month names: `months`. -/
def months : List String :=
  ["January", "February", "March", "April", "May", "June",
   "July", "August", "September", "October", "November", "December"]

/-- The method `toLowerCase()` of a string, character by character. -/
def toLowerCase (s : String) : String :=
  String.mk (s.data.map Char.toLower)

/-- Relevant months by frequency: `getRelevantMonths(frequency)`, with the value
`currentMonth` of `new Date().getMonth()` (0 to 11) as a parameter. -/
def getRelevantMonths (frequency : String) (currentMonth : Nat) : List String :=
  if frequency = "annual" then months
  else
    let isQ1 := decide (currentMonth ≤ 2)
    if isQ1 then months
    else
      let monthsToShow := currentMonth
      months.take monthsToShow

/-- Index of the starting month: `getStartingMonthIndex(startingMonth)`. -/
def getStartingMonthIndex (startingMonth : String) : Nat :=
  if startingMonth = "" then 0
  else
    match months.findIdx? (fun month => toLowerCase month = toLowerCase startingMonth) with
    | some monthIndex => monthIndex
    | none => 0

/-- Available months of an account: `getAvailableMonths(account, frequency)`. -/
def getAvailableMonths (account : Account) (frequency : String) (currentMonth : Nat) :
    List String :=
  let startingMonthIndex := getStartingMonthIndex account.startingMonth
  let relevantMonths := getRelevantMonths frequency currentMonth
  let availableMonths := (months.drop startingMonthIndex).filter fun month =>
    month ∈ relevantMonths
  (availableMonths.enum.filter fun p =>
    let actualMonthIndex := startingMonthIndex + p.1
    ¬ (actualMonthIndex ∈ account.removedMonths)).map Prod.snd

/-- The record `account.transactions[month] || {}`. -/
def transactionsOf (account : Account) (month : String) : MonthRecord :=
  (account.transactions.lookup month).getD MonthRecord.none

/-- A key of the object `accountErrors`: one of the four identity fields, or
`total_<month>`, `deposits_<month>`, `checks_<month>` for a month name. -/
inductive ErrorKey where
  | bankName : ErrorKey
  | lastFour : ErrorKey
  | accountType : ErrorKey
  | startingMonth : ErrorKey
  | total (month : String) : ErrorKey
  | deposits (month : String) : ErrorKey
  | checks (month : String) : ErrorKey
  deriving DecidableEq, Repr

/-- The constant `showDepositsChecks` of `validateAccount`. -/
def showDepositsChecks (type : String) : Bool :=
  decide (type = "Checking" ∨ type = "Savings")

/-- The constant `showTotal` of `validateAccount`. -/
def showTotal (type : String) : Bool :=
  decide (type = "Checking" ∨ type = "Savings" ∨ type = "Credit Card")

/-- The constant `isFlatFee` of `validateAccount`. -/
def isFlatFee (type : String) : Bool :=
  decide (type = "Jobox" ∨ type = "Paypal" ∨ type = "Amazon")

/-- The test of a total in `validateAccount`: `tx.total === undefined ||
tx.total === '' || isNaN(Number(tx.total)) || Number(tx.total) <= 0`. -/
def totalRejected (field : FieldValue) : Bool :=
  decide (field = FieldValue.undefined) || decide (field = FieldValue.empty) ||
    field.toNumber.isNone ||
    (match field.toNumber with
     | some number => decide (number ≤ 0)
     | none => false)

/-- The test of deposits and of checks in `validateAccount`: `x === undefined ||
x === '' || isNaN(Number(x)) || Number(x) < 0`. -/
def countRejected (field : FieldValue) : Bool :=
  decide (field = FieldValue.undefined) || decide (field = FieldValue.empty) ||
    field.toNumber.isNone ||
    (match field.toNumber with
     | some number => decide (number < 0)
     | none => false)

/-- The constant `effectiveTotal` of `validateAccount`:
`isNewAccount ? Math.max(averages.total, 30) : averages.total`. -/
def validationTotal (isNew : Bool) (averages : Averages) : Int :=
  if isNew then max averages.total 30 else averages.total

/-- The constant `depositsRequired` of `validateAccount`. -/
def depositsRequired (type : String) (total : Int) : Bool :=
  showDepositsChecks type && isDepositsRequired total

/-- The constant `checksRequired` of `validateAccount`. -/
def checksRequired (type : String) (total : Int) : Bool :=
  showDepositsChecks type && isChecksRequired total type

/-- The keys that the callback of `availableMonths.forEach` in `validateAccount`
sets for one month. -/
def monthErrors (account : Account) (isNew : Bool) (total : Int) (month : String) :
    List ErrorKey :=
  let tx := transactionsOf account month
  let type := account.accountType
  (if ¬ isNew then
    (if showTotal type && totalRejected tx.total then [ErrorKey.total month] else [])
   else []) ++
  (if showDepositsChecks type && depositsRequired type total then
    (if countRejected tx.deposits then [ErrorKey.deposits month] else [])
   else []) ++
  (if showDepositsChecks type && checksRequired type total then
    (if countRejected tx.checks then [ErrorKey.checks month] else [])
   else [])

/-- Validation of one account: `validateAccount(account, idx)`, the keys of the
object it returns, with the state `newAccountChecks`, the property `frequency`
and the current month as parameters. -/
def validateAccount (newAccountChecks : List (Option Bool)) (frequency : String)
    (currentMonth : Nat) (account : Account) (idx : Nat) : List ErrorKey :=
  (if account.bankName.trim = "" then [ErrorKey.bankName] else []) ++
  (if account.lastFour.trim = "" then [ErrorKey.lastFour] else []) ++
  (if idx = 0 then
    (if account.accountType = "" then [ErrorKey.accountType] else [])
   else
    (if account.accountType = "" then [ErrorKey.accountType] else [])) ++
  (if account.startingMonth = "" then [ErrorKey.startingMonth] else []) ++
  (let isNew := isNewAccount newAccountChecks idx
   let type := account.accountType
   if ¬ isFlatFee type then
     let availableMonths := getAvailableMonths account frequency currentMonth
     let averages := calculateAccountAverages
       (some (availableMonths.map fun month => transactionsOf account month))
     let total := validationTotal isNew averages
     availableMonths.flatMap fun month => monthErrors account isNew total month
   else [])


/-- A total that is missing, empty, not a number or not a positive number. -/
def TotalMissingOrNotPositive : FieldValue → Prop
  | FieldValue.undefined => True
  | FieldValue.empty => True
  | FieldValue.text none _ => True
  | FieldValue.text (some number) _ => number ≤ 0

/-- An account that starts in March and has one record, for March, with 200
transactions in total and nothing entered for deposits and checks. -/
def marchAccount : Account :=
  { initialAccount with
    bankName := "Ally Bank", lastFour := "1234", startingMonth := "March",
    transactions := [("March",
      { total := FieldValue.text (some 200) (some 200), deposits := FieldValue.undefined,
        checks := FieldValue.undefined })] }

/-! ## Annual months (`Dashboard.js`) -/

/-- An entry of `monthlyData`: `{ rate, accountType, bankName, isNewAccount }`. -/
structure MonthData where
  rate : Int
  accountType : String
  bankName : String
  isNewAccount : Bool
  deriving DecidableEq, Repr

/-- An element of the array that `getAnnualAccountData()` returns; the object
`monthlyData` is the list of its month names with their entries. -/
structure AnnualAccountData where
  bankName : String
  accountType : String
  startingMonth : String
  availableMonths : List String
  monthlyData : List (String × MonthData)
  deriving DecidableEq, Repr

/-- An element of the array that `getActiveMonthsData()` returns:
`{ month, rate }`. -/
structure ActiveMonth where
  month : String
  rate : Int
  deriving DecidableEq, Repr

/-- The call `allMonths.add(month)` on a `Set`, kept as the list of its elements
in the order of insertion. -/
def setAdd (set : List String) (month : String) : List String :=
  if month ∈ set then set else set ++ [month]

/-- The constant `monthOrder` of `getActiveMonthsData`. -/
def monthOrder : List String :=
  ["January", "February", "March", "April", "May", "June",
   "July", "August", "September", "October", "November", "December"]

/-- The value `monthOrder.indexOf(month)`, which is -1 for a string that is not
in `monthOrder`. -/
def monthOrderIndex (month : String) : Int :=
  match monthOrder.indexOf? month with
  | some index => (index : Int)
  | none => -1

/-- Rate per active month: `getActiveMonthsData()`, as a function of the value
`accountsData` of `booksSectionRef.current.getAnnualAccountData()`. -/
def getActiveMonthsData (accountsData : List AnnualAccountData) : List ActiveMonth :=
  if accountsData.length = 0 then []
  else
    let allMonths : List String := accountsData.foldl
      (fun set account => account.availableMonths.foldl setAdd set) []
    let monthsArray := allMonths
    let activeMonths : List ActiveMonth := monthsArray.map fun month =>
      let monthlyRate : Int := accountsData.foldl (fun monthlyRate account =>
        match account.monthlyData.lookup month with
        | some data => monthlyRate + data.rate
        | none => monthlyRate) 0
      let monthlyRate := max monthlyRate 110
      { month := month, rate := monthlyRate }
    activeMonths.insertionSort fun a b => monthOrderIndex a.month ≤ monthOrderIndex b.month

/-- Total annual rate: `calculateTotalAnnualRate()`, as a function of the same
value `accountsData`. -/
def calculateTotalAnnualRate (accountsData : List AnnualAccountData) : Int :=
  let activeMonths := getActiveMonthsData accountsData
  activeMonths.foldl (fun total month => total + month.rate) 0

/-- The sum, over all accounts, of the rate of the account for a month, an
account without that month contributing 0. -/
def specMonthSum (accountsData : List AnnualAccountData) (month : String) : Int :=
  (accountsData.map fun account =>
    match account.monthlyData.lookup month with
    | some data => data.rate
    | none => 0).sum

/-- Annual data of two accounts: the first has March and April at 100 each, the
second has January at 50 and March at 60. -/
def annualExample : List AnnualAccountData :=
  [{ bankName := "Ally Bank", accountType := "Checking", startingMonth := "March",
     availableMonths := ["March", "April"],
     monthlyData :=
       [("March", { rate := 100, accountType := "Checking", bankName := "Ally Bank",
                    isNewAccount := false }),
        ("April", { rate := 100, accountType := "Checking", bankName := "Ally Bank",
                    isNewAccount := false })] },
   { bankName := "TD Bank", accountType := "Savings", startingMonth := "January",
     availableMonths := ["January", "March"],
     monthlyData :=
       [("January", { rate := 50, accountType := "Savings", bankName := "TD Bank",
                      isNewAccount := false }),
        ("March", { rate := 60, accountType := "Savings", bankName := "TD Bank",
                    isNewAccount := false })] }]

/-! ## State handlers of the books section (`BooksSection.js`) -/

/-- A slot of the array `newAccountChecks`: never assigned (a hole of a sparse
array), holding `undefined`, or holding the boolean of the checkbox. -/
inductive FlagSlot where
  | hole : FlagSlot
  | undefined : FlagSlot
  | value (checked : Bool) : FlagSlot
  deriving DecidableEq, Repr

/-- The value `newAccountChecks[i]` read from a slot: a hole reads as
`undefined`, which is `none`. -/
def FlagSlot.read : FlagSlot → Option Bool
  | FlagSlot.hole => none
  | FlagSlot.undefined => none
  | FlagSlot.value checked => some checked

/-- The array `newAccountChecks` as the expressions `newAccountChecks[idx]` read
it. -/
def readFlags (newAccountChecks : List FlagSlot) : List (Option Bool) :=
  newAccountChecks.map FlagSlot.read

/-- The copy `[...prev]` of an array: the iteration yields `undefined` for a
hole. -/
def spreadFlags (prev : List FlagSlot) : List FlagSlot :=
  prev.map fun slot =>
    match slot with
    | FlagSlot.hole => FlagSlot.undefined
    | FlagSlot.undefined => FlagSlot.undefined
    | FlagSlot.value checked => FlagSlot.value checked

/-- The assignment `arr[accIdx] = checked`: an index past the end lengthens the
array and leaves holes below it. -/
def assignFlag (arr : List FlagSlot) (accIdx : Nat) (checked : Bool) : List FlagSlot :=
  if accIdx < arr.length then arr.set accIdx (FlagSlot.value checked)
  else arr ++ List.replicate (accIdx - arr.length) FlagSlot.hole ++ [FlagSlot.value checked]

/-- The update of `newAccountChecks` by `handleNewAccountCheck(accIdx, checked)`. -/
def handleNewAccountCheck (prev : List FlagSlot) (accIdx : Nat) (checked : Bool) :
    List FlagSlot :=
  let arr := spreadFlags prev
  assignFlag arr accIdx checked

/-- The call `prev.filter((_, i) => i !== idx)` on an array without holes. -/
def filterIndexNe {α : Type} (prev : List α) (idx : Nat) : List α :=
  (prev.enum.filter fun p => p.1 ≠ idx).map Prod.snd

/-- The call `prev.filter((_, i) => i !== idx)` on the array of flags: `filter`
does not visit a hole, and the array it returns has none. -/
def filterFlagsIndexNe (prev : List FlagSlot) (idx : Nat) : List FlagSlot :=
  (prev.enum.filter fun p => p.2 ≠ FlagSlot.hole ∧ p.1 ≠ idx).map Prod.snd

/-- The updates of `accounts` and of `newAccountChecks` by
`handleRemoveAccount(idx)`. -/
def handleRemoveAccount (accounts : List Account) (newAccountChecks : List FlagSlot)
    (idx : Nat) : List Account × List FlagSlot :=
  (filterIndexNe accounts idx, filterFlagsIndexNe newAccountChecks idx)

/-- The array `[...new Set(xs)]` of month indices: the elements of `xs` without
repetition, in the order of their first occurrence. -/
def uniqueIndices (xs : List Nat) : List Nat :=
  xs.foldl (fun set x => if x ∈ set then set else set ++ [x]) []

/-- The update of one account by `handleRemoveMonth(accountIdx, monthName)`: the
callback of `prev.map` on the account at `accountIdx`. -/
def handleRemoveMonth (frequency : String) (currentMonth : Nat) (acc : Account)
    (monthName : String) : Account :=
  let startingMonthIndex := getStartingMonthIndex acc.startingMonth
  let relevantMonths := getRelevantMonths frequency currentMonth
  let availableMonths := relevantMonths.drop startingMonthIndex
  match availableMonths.findIdx? (fun m => m = monthName) with
  | none => acc
  | some monthIndexInAvailable =>
    let actualMonthIndex := startingMonthIndex + monthIndexInAvailable
    let monthsToRemove := List.range' actualMonthIndex (12 - actualMonthIndex)
    { acc with removedMonths := uniqueIndices (acc.removedMonths ++ monthsToRemove) }

/-! ## Sales tax rows on screen and in the PDF (`SalesTaxSection.js`, `Dashboard.js`) -/

/-- A row of the sales tax section: `{ state, certificates, type }`, the string
`certificates` of the number input given as a field. -/
structure SalesTaxRow where
  state : String
  certificates : FieldValue
  type : String
  deriving DecidableEq, Repr

/-- An element of the array that `getSalesTaxData()` returns. -/
structure SalesTaxData where
  state : String
  certificates : Int
  type : String
  deriving DecidableEq, Repr

/-- Whether a string field is truthy: it is a non-empty string. -/
def FieldValue.truthy : FieldValue → Bool
  | FieldValue.undefined => false
  | FieldValue.empty => false
  | FieldValue.text _ _ => true

/-- The idiom `parseInt(x, 10) || 1`. -/
def parseIntOrOne (parsed : Option Int) : Int :=
  match parsed with
  | none => 1
  | some n => if n = 0 then 1 else n

/-- The rows for the popup and the PDF: `getSalesTaxData()`. -/
def getSalesTaxData (rows : List SalesTaxRow) : List SalesTaxData :=
  (rows.filter fun row => decide (row.state ≠ "") && row.certificates.truthy &&
      decide (row.type ≠ "")).map fun row =>
    { state := row.state
      certificates := parseIntOrOne row.certificates.parseInt
      type := row.type }

/-- The constant `rates` of `SalesTaxSection.js`: the rates of all rows, priced
together. -/
def sectionRates (rows : List SalesTaxRow) : List Nat :=
  let certRows := rows.map fun row => row.certificates.parseInt
  calculateSalesTaxRates certRows

/-- The rate cell of a sales tax row in the PDF table 'Payroll & Sales Tax
Breakdown': `calculateSalesTaxRates([row.certificates])[0]`. -/
def pdfSalesTaxRate (row : SalesTaxData) : Option Nat :=
  (calculateSalesTaxRates [some row.certificates]).head?

/-- The rate cells of the sales tax rows of the PDF table, in the order of
`salesTaxData.forEach`. -/
def pdfSalesTaxRates (rows : List SalesTaxRow) : List (Option Nat) :=
  (getSalesTaxData rows).map pdfSalesTaxRate


/-- The sales tax total of `total` certificates: 90 for each of the first 5, 75
for each of the next 5 and 60 for each one beyond 10. -/
def specSalesTaxTotal (total : Nat) : Nat :=
  90 * min total 5 + 75 * min (max (total - 5) 0) 5 + 60 * max (total - 10) 0

/-- The number of relevant months of a frequency: all 12 for the annual service
and in the first quarter, otherwise the months before the current one. -/
def relevantCount (frequency : String) (currentMonth : Nat) : Nat :=
  if frequency = "annual" then 12 else if currentMonth ≤ 2 then 12 else currentMonth

/-- The months with calendar index `i` such that `s ≤ i < R` and `i` is not
removed, in calendar order. -/
def specAvailableMonths (s R : Nat) (removedMonths : List Nat) : List String :=
  (months.enum.filter fun p =>
    decide (s ≤ p.1) && decide (p.1 < R) && decide (p.1 ∉ removedMonths)).map Prod.snd

/-- A set of month indices that contains every index from its smallest element
up to 11. -/
def ContainsFromSmallest (removedMonths : List Nat) : Prop :=
  ∀ smallest ∈ removedMonths, (∀ i ∈ removedMonths, smallest ≤ i) →
    ∀ j : Nat, smallest ≤ j → j ≤ 11 → j ∈ removedMonths

/-- Two complete sales tax rows: 5 certificates in New York, 1 in New Jersey. -/
def salesTaxExample : List SalesTaxRow :=
  [{ state := "New York", certificates := FieldValue.text (some 5) (some 5), type := "New" },
   { state := "New Jersey", certificates := FieldValue.text (some 1) (some 1), type := "New" }]

/-- Three accounts, told apart by their bank names. -/
def threeAccounts : List Account :=
  [{ initialAccount with bankName := "Ally Bank" },
   { initialAccount with bankName := "TD Bank" },
   { initialAccount with bankName := "HSBC" }]

/-! ## The account rate in the arithmetic of the source (`monthlyCalculators.js`)

The numbers of JavaScript are IEEE 754 binary64 values.  The definitions of this
section redo `calculateTransactionFees` and `calculateBooksAccountRate` with the
rounding of that format, for integer averages below `2 ^ 53` in absolute value.
Every intermediate value of the two functions is a multiple of `2 ^ (-54)`; it
is kept as the integer number of these units. -/

/-- The significand of the constant `0.85`: the binary64 value of `0.85` is
`significand085 / 2 ^ 53`, and that of `0.425` is `significand085 / 2 ^ 54`. -/
def significand085 : Nat := 7656119366529843

/-- The number of bits by which `n` exceeds 53 bits, counted by halving at most
`fuel` times.  -/
def excessBits : Nat → Nat → Nat
  | 0, _ => 0
  | fuel + 1, n => if n < 2 ^ 53 then 0 else 1 + excessBits fuel (n / 2)

/-- A natural number rounded to 53 significant bits, a tie going to the even
significand.  The 1024 halvings cover every number below `2 ^ 1077`, beyond
which a binary64 value in units of `2 ^ (-54)` would not be finite. -/
def roundSignificand (n : Nat) : Nat :=
  if n < 2 ^ 53 then n
  else
    let shift := excessBits 1024 n
    let q := n / 2 ^ shift
    let r := n % 2 ^ shift
    let half := 2 ^ (shift - 1)
    let q := if r < half then q else if half < r then q + 1 else if q % 2 = 0 then q else q + 1
    q * 2 ^ shift

/-- The binary64 value nearest to `n * 2 ^ (-54)`, in units of `2 ^ (-54)`. -/
def roundBinary64 (n : Int) : Int :=
  if n < 0 then -((roundSignificand n.natAbs : Nat) : Int)
  else ((roundSignificand n.natAbs : Nat) : Int)

/-- The product `x * 0.85` of binary64 arithmetic for an integer `x`, in units of
`2 ^ (-54)`. -/
def times085 (x : Int) : Int := roundBinary64 (x * (2 * (significand085 : Int)))

/-- The product `x * 0.425` of binary64 arithmetic for an integer `x`, in units
of `2 ^ (-54)`. -/
def times0425 (x : Int) : Int := roundBinary64 (x * (significand085 : Int))

/-- Transaction fees in binary64 arithmetic, in units of `2 ^ (-54)`:
`calculateTransactionFees(averageTotal, averageDeposits, accountType)`. -/
def calculateTransactionFees64 (averageTotal averageDeposits : Int) (accountType : String) :
    Int :=
  let total : Int := parseIntOrZero (some averageTotal)
  let depositsNum : Int := parseIntOrZero (some averageDeposits)
  if total = 0 then 0
  else if accountType ∈ flatFeeTypes then 0
  else if total > 150 ∧ 2 * depositsNum ≥ total then
    let transactionFee : Int := 0
    let transactionFee := roundBinary64 (transactionFee + times0425 depositsNum)
    let transactionFee := roundBinary64 (transactionFee + times085 (total - depositsNum))
    transactionFee
  else
    times085 total

/-- Monthly rate of one account in binary64 arithmetic:
`calculateBooksAccountRate(accountIndex, accountType, averageTotal,
averageDeposits, averageChecks)`. -/
def calculateBooksAccountRate64 (accountIndex : Nat) (accountType : String)
    (averageTotal averageDeposits _averageChecks : Int) : Int :=
  if accountType ∈ flatFeeTypes then 55
  else
    let flatFee := calculateBooksFlatFee accountIndex
    let transactionFees := calculateTransactionFees64 averageTotal averageDeposits accountType
    let total := roundBinary64 (flatFee * 2 ^ 54 + transactionFees)
    roundUpToNearestFiveOrZero (-((-total) / 2 ^ 54))


/-! ## Auxiliary facts -/

/-- On a non-negative value the rounding is the least multiple of 5 above it,
in terms of the remainder of the division by 10. -/
theorem roundUp_of_nonneg (v : Int) (hv : 0 ≤ v) :
    roundUpToNearestFiveOrZero v =
      if v % 10 = 0 ∨ v % 10 = 5 then v
      else if v % 10 < 5 then v + (5 - v % 10) else v + (10 - v % 10) := by
  unfold roundUpToNearestFiveOrZero
  have hmod : Int.tmod v 10 = v % 10 := Int.tmod_eq_emod hv (by decide)
  simp only [hmod]
  by_cases h0 : v = 0
  · subst h0; decide
  · simp only [h0, if_false]

/-- On an integer, `parseInt(n, 10) || 0` is `n`. -/
theorem parseIntOrZero_some (n : Int) : parseIntOrZero (some n) = n := by
  show (if n = 0 then 0 else n) = n
  split_ifs with h
  · exact h.symm
  · rfl

/-- The ceiling of a fraction with denominator 40, by integer division. -/
theorem ceil_div_forty (a : Int) : Int.ceil ((a : ℚ) / 40) = -((-a) / 40) := by
  have h := Rat.floor_intCast_div_natCast (-a) 40
  have h2 : ((a : ℚ) / 40) = -(((-a : Int) : ℚ) / ((40 : Nat) : ℚ)) := by
    push_cast; ring
  rw [h2, Int.ceil_neg, h]
  norm_num

/-- The rate of a volume-based account in integer arithmetic: the fee counted in
fortieths of a dollar. -/
theorem rate_eq_int (accountIndex : Nat) (accountType : String) (t d c : Int)
    (hty : accountType ∉ flatFeeTypes) :
    calculateBooksAccountRate accountIndex accountType t d c =
      roundUpToNearestFiveOrZero
        (-((-(40 * calculateBooksFlatFee accountIndex +
          (if t = 0 then 0
           else if t > 150 ∧ 2 * d ≥ t then 17 * d + 34 * (t - d) else 34 * t))) / 40)) := by
  unfold calculateBooksAccountRate calculateTransactionFees
  simp only [hty, if_false, parseIntOrZero_some]
  rw [← ceil_div_forty]
  congr 2
  have hcond : ((d : ℚ) ≥ (t : ℚ) * 0.5) ↔ 2 * d ≥ t := by
    constructor
    · intro h
      have h1 : (t : ℚ) ≤ 2 * (d : ℚ) := by linarith
      exact_mod_cast h1
    · intro h
      have h1 : (t : ℚ) ≤ 2 * (d : ℚ) := by exact_mod_cast h
      show (t : ℚ) * 0.5 ≤ (d : ℚ)
      linarith
  simp only [hcond]
  split_ifs <;> push_cast <;> ring

/-- The base fee of the source is the base fee of the specification. -/
theorem flatFee_eq_specBaseFee (index : Nat) : calculateBooksFlatFee index = specBaseFee index := by
  unfold calculateBooksFlatFee specBaseFee
  split_ifs <;> first | rfl | omega

/-! ## The account rate -/

/-- The binary64 value of `0.85` is `significand085 / 2 ^ 53` and that of
`0.425` is `significand085 / 2 ^ 54`: the significand has 53 bits and is the
integer nearest to `0.85 * 2 ^ 53`, which is `0.425 * 2 ^ 54`. -/
theorem significand085_nearest :
    2 ^ 52 ≤ significand085 ∧ significand085 < 2 ^ 53 ∧
    |(0.85 : ℚ) * 2 ^ 53 - (significand085 : ℚ)| < 1 / 2 ∧
    |(0.425 : ℚ) * 2 ^ 54 - (significand085 : ℚ)| < 1 / 2 := by
  refine ⟨by decide, by decide, ?_, ?_⟩
  · rw [abs_lt]; constructor <;> norm_num [significand085]
  · rw [abs_lt]; constructor <;> norm_num [significand085]

set_option maxRecDepth 100000 in
set_option maxHeartbeats 2000000 in
/-- The rate in binary64 of the first account, on the average totals 151 to 170
with average deposits 100 to 119, in the integer arithmetic of `rate_eq_int`. -/
theorem rate64_eq_int_sample :
    ∀ t : Fin 20, ∀ d : Fin 20,
      calculateBooksAccountRate64 0 "Checking" (((t : Nat) + 151 : Nat) : Int)
          (((d : Nat) + 100 : Nat) : Int) 0 =
        roundUpToNearestFiveOrZero
          (-((-(40 * calculateBooksFlatFee 0 +
            (if (((t : Nat) + 151 : Nat) : Int) = 0 then 0
             else if (((t : Nat) + 151 : Nat) : Int) > 150 ∧
                 2 * (((d : Nat) + 100 : Nat) : Int) ≥ (((t : Nat) + 151 : Nat) : Int)
               then 17 * (((d : Nat) + 100 : Nat) : Int) +
                 34 * ((((t : Nat) + 151 : Nat) : Int) - (((d : Nat) + 100 : Nat) : Int))
               else 34 * (((t : Nat) + 151 : Nat) : Int)))) / 40)) := by
  decide!

/-- The rate in binary64 and the rate in exact arithmetic agree for the first
account on the average totals 151 to 170 with average deposits 100 to 119, which
are at least half of the total and at most the total, and at sample averages of
the other branches. -/
theorem rate64_eq_rate_sample :
    (∀ t : Fin 20, ∀ d : Fin 20,
      calculateBooksAccountRate64 0 "Checking" (((t : Nat) + 151 : Nat) : Int)
          (((d : Nat) + 100 : Nat) : Int) 0 =
        calculateBooksAccountRate 0 "Checking" (((t : Nat) + 151 : Nat) : Int)
          (((d : Nat) + 100 : Nat) : Int) 0) ∧
    calculateBooksAccountRate64 1 "Savings" 200 120 0 =
      calculateBooksAccountRate 1 "Savings" 200 120 0 ∧
    calculateBooksAccountRate64 0 "Checking" 0 0 0 =
      calculateBooksAccountRate 0 "Checking" 0 0 0 ∧
    calculateBooksAccountRate64 3 "Credit Card" 100 0 0 =
      calculateBooksAccountRate 3 "Credit Card" 100 0 0 ∧
    calculateBooksAccountRate64 0 "Checking" 200 485 0 =
      calculateBooksAccountRate 0 "Checking" 200 485 0 := by
  refine ⟨?_, ?_, ?_, ?_, ?_⟩
  · intro t d
    rw [rate_eq_int _ _ _ _ _ (by decide)]
    exact rate64_eq_int_sample t d
  · rw [rate_eq_int _ _ _ _ _ (by decide)]; decide
  · rw [rate_eq_int _ _ _ _ _ (by decide)]; decide
  · rw [rate_eq_int _ _ _ _ _ (by decide)]; decide
  · rw [rate_eq_int _ _ _ _ _ (by decide)]; decide

/-- C1 as stated fails: for the first account, a checking account with an
average total of 279 and average deposits of 358, the reference definition gives
110, from the fee 152.15 - 67.15 = 85, and the code returns 115: in binary64 the
fee is `85 + 2 ^ (-46)`, so that the ceiling of 25 plus the fee is 111. -/
theorem account_rate_reference_counterexample :
    ¬ ("Checking" = "Jobox" ∨ "Checking" = "Paypal" ∨ "Checking" = "Amazon") ∧
    (0 : Int) < 279 ∧
    calculateTransactionFees64 279 358 "Checking" = 85 * 2 ^ 54 + 2 ^ 8 ∧
    calculateBooksAccountRate64 0 "Checking" 279 358 0 = 115 ∧
    roundUpToNearestFiveOrZero
      (Int.ceil ((specBaseFee 0 : ℚ) + specTransactionFee 279 358)) = 110 ∧
    calculateBooksAccountRate64 0 "Checking" 279 358 0 ≠
      roundUpToNearestFiveOrZero
        (Int.ceil ((specBaseFee 0 : ℚ) + specTransactionFee 279 358)) := by
  have href : roundUpToNearestFiveOrZero
      (Int.ceil ((specBaseFee 0 : ℚ) + specTransactionFee 279 358)) = 110 := by
    have hfee : (specBaseFee 0 : ℚ) + specTransactionFee 279 358 = ((110 : Int) : ℚ) := by
      unfold specTransactionFee
      rw [if_pos (by norm_num)]
      norm_num [specBaseFee]
    rw [hfee, Int.ceil_intCast]
    decide
  have h64 : calculateBooksAccountRate64 0 "Checking" 279 358 0 = 115 := by decide
  refine ⟨by decide, by decide, by decide, h64, href, ?_⟩
  rw [h64, href]
  decide

/-- C1, amended: `calculateBooksAccountRate` equals the reference definition on
averages whose deposits do not exceed the total: it is 55 for the categories
Jobox, Paypal and Amazon, and for every other category with a positive average
total and average deposits of at most that total it is the round-up to a
multiple of 5 of the ceiling of base fee plus transaction fee, for every
position index. -/
theorem calculateBooksAccountRate_eq_reference (accountIndex : Nat) (accountType : String)
    (averageTotal averageDeposits averageChecks : Int) :
    ((accountType = "Jobox" ∨ accountType = "Paypal" ∨ accountType = "Amazon") →
      calculateBooksAccountRate accountIndex accountType averageTotal averageDeposits
        averageChecks = 55) ∧
    (¬ (accountType = "Jobox" ∨ accountType = "Paypal" ∨ accountType = "Amazon") →
      0 < averageTotal → averageDeposits ≤ averageTotal →
      calculateBooksAccountRate accountIndex accountType averageTotal averageDeposits
        averageChecks =
        roundUpToNearestFiveOrZero
          (Int.ceil ((specBaseFee accountIndex : ℚ) +
            specTransactionFee averageTotal averageDeposits))) := by
  have hmem : accountType ∈ flatFeeTypes ↔
      (accountType = "Jobox" ∨ accountType = "Paypal" ∨ accountType = "Amazon") := by
    simp [flatFeeTypes]
  constructor
  · intro h
    unfold calculateBooksAccountRate
    rw [if_pos (hmem.mpr h)]
  · intro h hpos _
    have hne : averageTotal ≠ 0 := by omega
    have hnot : accountType ∉ flatFeeTypes := fun hm => h (hmem.mp hm)
    unfold calculateBooksAccountRate calculateTransactionFees specTransactionFee
    simp only [hnot, if_false, parseIntOrZero_some, hne, flatFee_eq_specBaseFee]
    congr 2
    have hcomm : (averageTotal : ℚ) * 0.5 = 0.5 * (averageTotal : ℚ) := by ring
    rw [hcomm]
    split_ifs
    · push_cast; ring
    · rfl

/-- Witness of the amended C1 at a flat-fee account and at the second account, a
savings account with 200 transactions of which 120 are deposits:
20 + 51 + 68 = 139. -/
theorem calculateBooksAccountRate_eq_reference_witness :
    calculateBooksAccountRate 4 "Paypal" 200 120 0 = 55 ∧
    (120 : Int) ≤ 200 ∧
    calculateBooksAccountRate 1 "Savings" 200 120 0 =
      roundUpToNearestFiveOrZero
        (Int.ceil ((specBaseFee 1 : ℚ) + specTransactionFee 200 120)) :=
  ⟨(calculateBooksAccountRate_eq_reference 4 "Paypal" 200 120 0).1 (by decide),
   by decide,
   (calculateBooksAccountRate_eq_reference 1 "Savings" 200 120 0).2 (by decide) (by decide)
     (by decide)⟩

/-- C2 as stated fails: a first account of category Checking with an average
total of 0 is charged 25, not 0. -/
theorem zero_total_rate_counterexample :
    calculateBooksAccountRate 0 "Checking" 0 0 0 = 25 ∧
    calculateBooksAccountRate 0 "Checking" 0 0 0 ≠ 0 := by
  have h : calculateBooksAccountRate 0 "Checking" 0 0 0 = 25 := by
    rw [rate_eq_int _ _ _ _ _ (by decide)]; decide
  exact ⟨h, by rw [h]; decide⟩

/-- C2, amended: for every position index and every volume-based category, when
the average total is 0 the transaction fee is 0 and the account rate is the base
fee of the position (25, 20 or 15): the short-circuit zeroes the transaction fee
only, the base fee is still added. -/
theorem zero_total_rate_is_base_fee (accountIndex : Nat) (accountType : String)
    (averageDeposits averageChecks : Int)
    (hty : accountType = "Checking" ∨ accountType = "Savings" ∨ accountType = "Credit Card") :
    calculateTransactionFees 0 averageDeposits accountType = 0 ∧
    calculateBooksAccountRate accountIndex accountType 0 averageDeposits averageChecks =
      (if accountIndex = 0 then 25 else if accountIndex ≤ 2 then 20 else 15) := by
  have hnot : accountType ∉ flatFeeTypes := by
    rcases hty with h | h | h <;> subst h <;> decide
  constructor
  · unfold calculateTransactionFees
    simp [parseIntOrZero_some]
  · rw [rate_eq_int _ _ _ _ _ hnot]
    unfold calculateBooksFlatFee
    split_ifs <;> first | decide | omega

/-- Witness of the amended C2: the third account, a credit card without
activity, is charged 20. -/
theorem zero_total_rate_is_base_fee_witness :
    calculateTransactionFees 0 0 "Credit Card" = 0 ∧
    calculateBooksAccountRate 2 "Credit Card" 0 0 0 = 20 :=
  zero_total_rate_is_base_fee 2 "Credit Card" 0 0 (by decide)

/-! ## Rounding up to a multiple of 5 -/

/-- C10: for every non-negative integer `v` the rounding is at least `v`, is
divisible by 5 and exceeds `v` by less than 5; 0 maps to 0, a multiple of 5 is
returned unchanged, and rounding twice is rounding once. -/
theorem roundUpToNearestFiveOrZero_spec (v : Int) (hv : 0 ≤ v) :
    v ≤ roundUpToNearestFiveOrZero v ∧
    5 ∣ roundUpToNearestFiveOrZero v ∧
    roundUpToNearestFiveOrZero v - v < 5 ∧
    roundUpToNearestFiveOrZero 0 = 0 ∧
    (5 ∣ v → roundUpToNearestFiveOrZero v = v) ∧
    roundUpToNearestFiveOrZero (roundUpToNearestFiveOrZero v) = roundUpToNearestFiveOrZero v := by
  have key : ∀ w : Int, 0 ≤ w →
      w ≤ roundUpToNearestFiveOrZero w ∧ 5 ∣ roundUpToNearestFiveOrZero w ∧
      roundUpToNearestFiveOrZero w - w < 5 ∧ (5 ∣ w → roundUpToNearestFiveOrZero w = w) := by
    intro w hw
    rw [roundUp_of_nonneg w hw]
    split_ifs <;> omega
  obtain ⟨h1, h2, h3, h4⟩ := key v hv
  refine ⟨h1, h2, h3, by decide, h4, ?_⟩
  exact (key _ (le_trans hv h1)).2.2.2 h2

/-- Witness of C10 at 7, which rounds to 10. -/
theorem roundUpToNearestFiveOrZero_spec_witness :
    (0 : Int) ≤ 7 ∧ roundUpToNearestFiveOrZero 7 = 10 ∧
    roundUpToNearestFiveOrZero (roundUpToNearestFiveOrZero 7) = roundUpToNearestFiveOrZero 7 :=
  ⟨by decide, by decide, (roundUpToNearestFiveOrZero_spec 7 (by decide)).2.2.2.2.2⟩

/-! ## Sales tax rates -/

/-- One more counter value in front of a row: the first unit is priced at
`before + 1` and the others follow. -/
theorem specRowRate_succ (before count : Nat) :
    specRowRate before (count + 1) =
      specUnitPrice (before + 1) + specRowRate (before + 1) count := by
  unfold specRowRate
  rw [List.range_succ_eq_map, List.map_cons, List.sum_cons, List.map_map]
  congr 2
  apply List.map_congr_left
  intro j _
  simp only [Function.comp_apply]
  congr 1
  omega

/-- The loop over the units of a row advances the counter by the count of the
row and adds the unit prices of the counter values it went through. -/
theorem certLoop_eq (count : Nat) : ∀ totalCerts rowTotal : Nat,
    certLoop count (totalCerts, rowTotal) =
      (totalCerts + count, rowTotal + specRowRate totalCerts count) := by
  induction count with
  | zero =>
    intro totalCerts rowTotal
    simp [certLoop, specRowRate]
  | succ n ih =>
    intro totalCerts rowTotal
    rw [certLoop, specRowRate_succ]
    have hprice : (if totalCerts + 1 ≤ 5 then rowTotal + 90
        else if totalCerts + 1 ≤ 10 then rowTotal + 75 else rowTotal + 60) =
        rowTotal + specUnitPrice (totalCerts + 1) := by
      unfold specUnitPrice
      split_ifs <;> first | rfl | omega
    rw [hprice, ih]
    ext
    · simp only []; omega
    · simp only []; omega

/-- The rows priced from a counter that already stands at `totalCerts`. -/
theorem salesTaxRows_eq (counts : List Nat) : ∀ totalCerts : Nat,
    salesTaxRows (counts.map fun c : Nat => some (c : Int)) totalCerts =
      (List.range counts.length).map fun k =>
        specRowRate (totalCerts + (counts.take k).sum) (counts.getD k 0) := by
  induction counts with
  | nil => intro totalCerts; rfl
  | cons c rest ih =>
    intro totalCerts
    rw [List.map_cons, salesTaxRows, parseIntOrZero_some, Int.toNat_ofNat, certLoop_eq]
    simp only [List.length_cons, List.range_succ_eq_map, List.map_cons, List.map_map]
    rw [ih]
    simp only [Nat.zero_add, List.take_zero, List.sum_nil, Nat.add_zero, List.getD_cons_zero]
    congr 1
    apply List.map_congr_left
    intro k _
    simp only [Function.comp_apply, List.take_succ_cons, List.sum_cons, List.getD_cons_succ]
    congr 1
    omega

/-- C3: for every ordered list of non-negative certificate counts,
`calculateSalesTaxRates` returns one rate per row, and the rate of the row at
position `k` is the sum of the unit prices of the global counter values
`P + 1`, ..., `P + c`, where `c` is the count of the row and `P` the sum of the
counts of the rows before it. -/
theorem calculateSalesTaxRates_running_counter (counts : List Nat) :
    (calculateSalesTaxRates (counts.map fun c : Nat => some (c : Int))).length = counts.length ∧
    calculateSalesTaxRates (counts.map fun c : Nat => some (c : Int)) =
      (List.range counts.length).map fun k =>
        specRowRate ((counts.take k).sum) (counts.getD k 0) := by
  have h := salesTaxRows_eq counts 0
  simp only [Nat.zero_add] at h
  unfold calculateSalesTaxRates
  rw [h]
  exact ⟨by simp, rfl⟩

/-- C4 as stated fails: on the counts 3, 4, 5 the third row is not 360. -/
theorem salesTax_3_4_5_counterexample :
    calculateSalesTaxRates [some 3, some 4, some 5] ≠ [270, 330, 360] := by
  decide

/-- C4, amended: on the counts 3, 4, 5 the rates are 270, 330 and 345; the
third row goes through the counter values 8 to 12 and costs
75 + 75 + 75 + 60 + 60 = 345. -/
theorem salesTax_3_4_5 :
    calculateSalesTaxRates [some 3, some 4, some 5] = [270, 330, 345] ∧
    (75 + 75 + 75 + 60 + 60 : Nat) = 345 := by
  decide

/-! ## The total books rate -/

/-- A reduction that adds one term per element is the initial value plus the sum
of the terms, each element taken with its position. -/
theorem reduceWithIndex_add {α : Type} (term : α → Nat → Int) (xs : List α) :
    ∀ (idx : Nat) (sum : Int),
      reduceWithIndex (fun sum x idx => sum + term x idx) xs idx sum =
        sum + ((xs.enumFrom idx).map fun p => term p.2 p.1).sum := by
  induction xs with
  | nil => intro idx sum; simp [reduceWithIndex]
  | cons x rest ih =>
    intro idx sum
    rw [reduceWithIndex, ih]
    simp only [List.enumFrom_cons, List.map_cons, List.sum_cons]
    omega

/-- C5: for every list of accounts and of new-account flags, and every
account-data function, `calculateTotalBooksRate` is the maximum of 110 and the
sum of the rates of the accounts; it is never below 110, also for a single
account without activity. -/
theorem calculateTotalBooksRate_floor (accounts : List Account)
    (newAccountChecks : List (Option Bool))
    (calculateAccountDataFunc : Account → Nat → AccountData) :
    calculateTotalBooksRate accounts newAccountChecks calculateAccountDataFunc =
      max ((accounts.enum.map fun p =>
        accountRate newAccountChecks calculateAccountDataFunc p.2 p.1).sum) 110 ∧
    110 ≤ calculateTotalBooksRate accounts newAccountChecks calculateAccountDataFunc ∧
    calculateTotalBooksRate [initialAccount] []
      (fun acc idx => { averages := { total := 0, deposits := 0, checks := 0 },
                        rate := calculateBooksAccountRate idx acc.accountType 0 0 0 }) = 110 := by
  have h : calculateTotalBooksRate accounts newAccountChecks calculateAccountDataFunc =
      max ((accounts.enum.map fun p =>
        accountRate newAccountChecks calculateAccountDataFunc p.2 p.1).sum) 110 := by
    unfold calculateTotalBooksRate
    simp only [reduceWithIndex_add, List.enum, Int.zero_add]
  refine ⟨h, ?_, ?_⟩
  · rw [h]; exact le_max_right _ _
  · have hrate : calculateBooksAccountRate 0 "Checking" 0 0 0 = 25 := by
      rw [rate_eq_int _ _ _ _ _ (by decide)]; decide
    simp [calculateTotalBooksRate, reduceWithIndex, accountRate, isNewAccount, initialAccount,
      hrate]

/-- C6: in `calculateTotalBooksRate` an account flagged new, with computed
averages `(e, d, c)`, is priced as `calculateBooksAccountRate` at the total
`max(e, 30)` and at the deposits and checks `d` and `c` if `e > 30`, `0` and `0`
otherwise; with an entered average total of 20 the effective total is 30 and
the effective deposits and checks are 0 whatever was entered. -/
theorem calculateTotalBooksRate_new_account (accounts : List Account)
    (newAccountChecks : List (Option Bool))
    (calculateAccountDataFunc : Account → Nat → AccountData) :
    calculateTotalBooksRate accounts newAccountChecks calculateAccountDataFunc =
      max ((accounts.enum.map fun p =>
        if isNewAccount newAccountChecks p.1 then
          calculateBooksAccountRate p.1 p.2.accountType
            (max (calculateAccountDataFunc p.2 p.1).averages.total 30)
            (if (calculateAccountDataFunc p.2 p.1).averages.total > 30
              then (calculateAccountDataFunc p.2 p.1).averages.deposits else 0)
            (if (calculateAccountDataFunc p.2 p.1).averages.total > 30
              then (calculateAccountDataFunc p.2 p.1).averages.checks else 0)
        else (calculateAccountDataFunc p.2 p.1).rate).sum) 110 ∧
    (∀ (acc : Account) (d c r : Int),
      effectiveTotal 20 = 30 ∧
      effectiveDeposits { averages := { total := 20, deposits := d, checks := c }, rate := r } = 0 ∧
      effectiveChecks { averages := { total := 20, deposits := d, checks := c }, rate := r } = 0 ∧
      calculateTotalBooksRate [acc] [some true]
        (fun _ _ => { averages := { total := 20, deposits := d, checks := c }, rate := r }) =
        max (calculateBooksAccountRate 0 acc.accountType 30 0 0) 110) := by
  constructor
  · unfold calculateTotalBooksRate
    simp only [reduceWithIndex_add, List.enum, Int.zero_add]
    rfl
  · intro acc d c r
    refine ⟨by decide, ?_, ?_, ?_⟩
    · simp [effectiveDeposits]
    · simp [effectiveChecks]
    · simp [calculateTotalBooksRate, reduceWithIndex, accountRate, isNewAccount, effectiveTotal,
        effectiveDeposits, effectiveChecks]

/-! ## The annual discount -/

/-- The discount percentage in one case distinction, in hundredths. -/
theorem calculateAnnualDiscount_cases (T : Int) :
    calculateAnnualDiscount T =
      ((if T < 660 then 0 else if T < 990 then 9 else if T < 1190 then 12
        else if T < 1460 then 15 else if T < 1700 then 17 else if T < 2800 then 20
        else if T < 3000 then 22 else 25 : Int) : ℚ) / 100 := by
  unfold calculateAnnualDiscount
  by_cases h1 : T < 660
  · simp only [h1, if_true]; norm_num
  have g1 : T ≥ 660 := by omega
  by_cases h2 : T < 990
  · simp only [h1, g1, h2, and_self, if_true, if_false]; norm_num
  have g2 : T ≥ 990 := by omega
  by_cases h3 : T < 1190
  · simp only [h1, h2, g2, h3, and_self, and_false, if_true, if_false]; norm_num
  have g3 : T ≥ 1190 := by omega
  by_cases h4 : T < 1460
  · simp only [h1, h2, h3, g3, h4, and_self, and_false, if_true, if_false]; norm_num
  have g4 : T ≥ 1460 := by omega
  by_cases h5 : T < 1700
  · simp only [h1, h2, h3, h4, g4, h5, and_self, and_false, if_true, if_false]; norm_num
  have g5 : T ≥ 1700 := by omega
  by_cases h6 : T < 2800
  · simp only [h1, h2, h3, h4, h5, g5, h6, and_self, and_false, if_true, if_false]; norm_num
  have g6 : T ≥ 2800 := by omega
  by_cases h7 : T < 3000
  · simp only [h1, h2, h3, h4, h5, h6, g6, h7, and_self, and_false, if_true, if_false]; norm_num
  have g7 : T ≥ 3000 := by omega
  simp only [h1, h2, h3, h4, h5, h6, h7, g7, and_self, and_false, if_true, if_false]; norm_num

/-- The hundredths of the ladder, with the interval the total lies in. -/
theorem ladder_percent_cases (T : Int) : ∃ p : Int,
    (if T < 660 then 0 else if T < 990 then 9 else if T < 1190 then 12
      else if T < 1460 then 15 else if T < 1700 then 17 else if T < 2800 then 20
      else if T < 3000 then 22 else 25 : Int) = p ∧
    ((T < 660 ∧ p = 0) ∨ (660 ≤ T ∧ T < 990 ∧ p = 9) ∨ (990 ≤ T ∧ T < 1190 ∧ p = 12) ∨
      (1190 ≤ T ∧ T < 1460 ∧ p = 15) ∨ (1460 ≤ T ∧ T < 1700 ∧ p = 17) ∨
      (1700 ≤ T ∧ T < 2800 ∧ p = 20) ∨ (2800 ≤ T ∧ T < 3000 ∧ p = 22) ∨
      (3000 ≤ T ∧ p = 25)) := by
  refine ⟨_, rfl, ?_⟩
  split_ifs <;> omega

/-- C7: `calculateAnnualDiscount` returns the percentage of the ladder: 0 below
660, 9% from 660, 12% from 990, 15% from 1190, 17% from 1460, 20% from 1700,
22% from 2800 and 25% from 3000 on; the percentage is non-decreasing in the
total annual rate. -/
theorem calculateAnnualDiscount_ladder (T : Int) :
    (T < 660 → calculateAnnualDiscount T = 0) ∧
    (660 ≤ T → T < 990 → calculateAnnualDiscount T = 9 / 100) ∧
    (990 ≤ T → T < 1190 → calculateAnnualDiscount T = 12 / 100) ∧
    (1190 ≤ T → T < 1460 → calculateAnnualDiscount T = 15 / 100) ∧
    (1460 ≤ T → T < 1700 → calculateAnnualDiscount T = 17 / 100) ∧
    (1700 ≤ T → T < 2800 → calculateAnnualDiscount T = 20 / 100) ∧
    (2800 ≤ T → T < 3000 → calculateAnnualDiscount T = 22 / 100) ∧
    (3000 ≤ T → calculateAnnualDiscount T = 25 / 100) ∧
    (∀ T2 : Int, T ≤ T2 → calculateAnnualDiscount T ≤ calculateAnnualDiscount T2) := by
  refine ⟨?_, ?_, ?_, ?_, ?_, ?_, ?_, ?_, ?_⟩
  · intro h
    rw [calculateAnnualDiscount_cases, if_pos h]; norm_num
  · intro h1 h2
    rw [calculateAnnualDiscount_cases]; split_ifs <;> first | (exfalso; omega) | norm_num
  · intro h1 h2
    rw [calculateAnnualDiscount_cases]; split_ifs <;> first | (exfalso; omega) | norm_num
  · intro h1 h2
    rw [calculateAnnualDiscount_cases]; split_ifs <;> first | (exfalso; omega) | norm_num
  · intro h1 h2
    rw [calculateAnnualDiscount_cases]; split_ifs <;> first | (exfalso; omega) | norm_num
  · intro h1 h2
    rw [calculateAnnualDiscount_cases]; split_ifs <;> first | (exfalso; omega) | norm_num
  · intro h1 h2
    rw [calculateAnnualDiscount_cases]; split_ifs <;> first | (exfalso; omega) | norm_num
  · intro h
    rw [calculateAnnualDiscount_cases]; split_ifs <;> first | (exfalso; omega) | norm_num
  · intro T2 hle
    rw [calculateAnnualDiscount_cases, calculateAnnualDiscount_cases]
    apply div_le_div_of_nonneg_right _ (by norm_num : (0 : ℚ) ≤ 100)
    have hint : (if T < 660 then 0 else if T < 990 then 9 else if T < 1190 then 12
        else if T < 1460 then 15 else if T < 1700 then 17 else if T < 2800 then 20
        else if T < 3000 then 22 else 25 : Int) ≤
        (if T2 < 660 then 0 else if T2 < 990 then 9 else if T2 < 1190 then 12
        else if T2 < 1460 then 15 else if T2 < 1700 then 17 else if T2 < 2800 then 20
        else if T2 < 3000 then 22 else 25 : Int) := by
      obtain ⟨p, hp, hpT⟩ := ladder_percent_cases T
      obtain ⟨q, hq, hqT⟩ := ladder_percent_cases T2
      rw [hp, hq]
      omega
    exact_mod_cast hint

/-- Witness of C7 at the totals 1000 (12%) and 2800 (22%). -/
theorem calculateAnnualDiscount_ladder_witness :
    calculateAnnualDiscount 1000 = 12 / 100 ∧
    calculateAnnualDiscount 1000 ≤ calculateAnnualDiscount 2800 :=
  ⟨(calculateAnnualDiscount_ladder 1000).2.2.1 (by decide) (by decide),
   (calculateAnnualDiscount_ladder 1000).2.2.2.2.2.2.2.2 2800 (by decide)⟩

/-- C8: for every total annual rate `T` with ladder percentage `p`,
`getAnnualPricingData` returns the discount amount `floor(T * p / 5) * 5`, a
multiple of 5 that is at most `T * p` and less than 5 below it, and the
discounted rate `T` minus that amount; at 660 this is 9%, 55 and 605, at 659 it
is 0% and 659. -/
theorem getAnnualPricingData_spec (T : Int) :
    (getAnnualPricingData T).discountPercentage = calculateAnnualDiscount T ∧
    (getAnnualPricingData T).discountAmount =
      Int.floor ((T : ℚ) * calculateAnnualDiscount T / 5) * 5 ∧
    5 ∣ (getAnnualPricingData T).discountAmount ∧
    ((getAnnualPricingData T).discountAmount : ℚ) ≤ (T : ℚ) * calculateAnnualDiscount T ∧
    (T : ℚ) * calculateAnnualDiscount T - ((getAnnualPricingData T).discountAmount : ℚ) < 5 ∧
    (getAnnualPricingData T).discountedRate = T - (getAnnualPricingData T).discountAmount ∧
    ((getAnnualPricingData 660).discountPercentage = 9 / 100 ∧
      (getAnnualPricingData 660).discountAmount = 55 ∧
      (getAnnualPricingData 660).discountedRate = 605) ∧
    ((getAnnualPricingData 659).discountPercentage = 0 ∧
      (getAnnualPricingData 659).discountedRate = 659) := by
  have hfloor : ∀ q : ℚ, ((Int.floor (q / 5) * 5 : Int) : ℚ) ≤ q ∧
      q - ((Int.floor (q / 5) * 5 : Int) : ℚ) < 5 := by
    intro q
    have h1 := Int.floor_le (q / 5)
    have h2 := Int.lt_floor_add_one (q / 5)
    push_cast
    constructor <;> linarith
  have h660 : calculateAnnualDiscount 660 = 9 / 100 := by
    rw [calculateAnnualDiscount_cases]; norm_num
  have h659 : calculateAnnualDiscount 659 = 0 := by
    rw [calculateAnnualDiscount_cases]; norm_num
  have hamount : (getAnnualPricingData 660).discountAmount = 55 := by
    show Int.floor ((((660 : Int) : ℚ) * calculateAnnualDiscount 660) / 5) * 5 = 55
    rw [h660]
    have : Int.floor ((((660 : Int) : ℚ) * (9 / 100)) / 5) = 11 := by
      rw [Int.floor_eq_iff]; norm_num
    rw [this]; rfl
  refine ⟨rfl, rfl, ?_, ?_, ?_, rfl, ⟨h660, hamount, ?_⟩, ⟨h659, ?_⟩⟩
  · exact Dvd.intro_left _ rfl
  · exact (hfloor _).1
  · exact (hfloor _).2
  · show (660 : Int) - (getAnnualPricingData 660).discountAmount = 605
    rw [hamount]; rfl
  · show (659 : Int) - Int.floor ((((659 : Int) : ℚ) * calculateAnnualDiscount 659) / 5) * 5 = 659
    rw [h659]; simp

/-! ## The payroll rate -/

/-- C9: for every integer headcount `n ≥ 1` the payroll rate is
`75 + 20 * min(2, n - 1) + 15 * max(0, n - 3)`, so that 1 gives 75, 3 gives 115
and 5 gives 145; for every `n < 1` and for an input that is not a number the
result is the empty value. -/
theorem calculatePayrollRate_spec :
    (∀ n : Int, 1 ≤ n →
      calculatePayrollRate (some n) = some (75 + 20 * min 2 (n - 1) + 15 * max 0 (n - 3))) ∧
    calculatePayrollRate (some 1) = some 75 ∧
    calculatePayrollRate (some 3) = some 115 ∧
    calculatePayrollRate (some 5) = some 145 ∧
    (∀ n : Int, n < 1 → calculatePayrollRate (some n) = none) ∧
    calculatePayrollRate none = none := by
  refine ⟨?_, by decide, by decide, by decide, ?_, rfl⟩
  · intro n hn
    have h0 : ¬ (n = 0 ∨ n < 1) := by omega
    simp only [calculatePayrollRate, h0, if_false, Option.some.injEq]
    have hmin : min 2 (n - 1) = if n ≥ 3 then 2 else n - 1 := by
      split_ifs <;> omega
    have hmax : max 0 (n - 3) = if n ≥ 3 then n - 3 else 0 := by
      split_ifs <;> omega
    rw [hmin, hmax]
    split_ifs <;> omega
  · intro n hn
    have h0 : n = 0 ∨ n < 1 := Or.inr hn
    simp only [calculatePayrollRate, h0, if_true]

/-- Witness of C9 at a headcount of 4 and at a headcount of 0. -/
theorem calculatePayrollRate_spec_witness :
    calculatePayrollRate (some 4) = some (75 + 20 * min 2 (4 - 1) + 15 * max 0 (4 - 3)) ∧
    calculatePayrollRate (some 0) = none :=
  ⟨calculatePayrollRate_spec.1 4 (by decide), calculatePayrollRate_spec.2.2.2.2.1 0 (by decide)⟩

/-! ## Setup fees -/

/-- C18: `calculateSalesTaxSetup` returns 150 times the certificate count when
the status is New and the count is positive, 150 when the status is New and the
count is 0 or not a number, and the empty value for every other status. -/
theorem calculateSalesTaxSetup_spec :
    (∀ num : Int, 0 < num → calculateSalesTaxSetup "New" (some num) = some (150 * num)) ∧
    calculateSalesTaxSetup "New" (some 0) = some 150 ∧
    calculateSalesTaxSetup "New" none = some 150 ∧
    (∀ (type : String) (certificates : Option Int), type ≠ "New" →
      calculateSalesTaxSetup type certificates = none) := by
  refine ⟨?_, by decide, by decide, ?_⟩
  · intro num hnum
    simp [calculateSalesTaxSetup, hnum]
  · intro type certificates hne
    simp [calculateSalesTaxSetup, hne]

/-- Witness of C18: three certificates of a new registration cost 450, and an
existing registration has no setup fee. -/
theorem calculateSalesTaxSetup_spec_witness :
    calculateSalesTaxSetup "New" (some 3) = some (150 * 3) ∧
    calculateSalesTaxSetup "Existing" (some 3) = none :=
  ⟨calculateSalesTaxSetup_spec.1 3 (by decide),
   calculateSalesTaxSetup_spec.2.2.2 "Existing" (some 3) (by decide)⟩

/-- C19 as stated fails: for the status Existing `calculatePayrollSetup` returns
the empty value, not the number 0. -/
theorem calculatePayrollSetup_counterexample :
    calculatePayrollSetup "Existing" = none ∧ calculatePayrollSetup "Existing" ≠ some 0 := by
  decide

/-- The setup total from any starting sum. -/
theorem totalSetup_foldl (rows : List PayrollRow) : ∀ init : Int,
    rows.foldl (fun sum row => sum + numberOrZero (calculatePayrollSetup row.type)) init =
      init + 150 * ((rows.filter fun row => row.type = "New").length : Int) := by
  induction rows with
  | nil => intro init; simp
  | cons row rest ih =>
    intro init
    rw [List.foldl_cons, ih]
    by_cases h : row.type = "New"
    · simp [calculatePayrollSetup, numberOrZero, h]
      ring
    · simp [calculatePayrollSetup, numberOrZero, h]

/-- C19, amended: `calculatePayrollSetup` returns 150 when the status is New and
the empty value otherwise, which the payroll section counts as 0, so that the
total setup over any list of rows is 150 times the number of rows whose status
is New. -/
theorem calculatePayrollSetup_spec :
    calculatePayrollSetup "New" = some 150 ∧
    (∀ type : String, type ≠ "New" →
      calculatePayrollSetup type = none ∧ numberOrZero (calculatePayrollSetup type) = 0) ∧
    (∀ rows : List PayrollRow,
      totalSetup rows = 150 * ((rows.filter fun row => row.type = "New").length : Int)) := by
  refine ⟨by decide, ?_, ?_⟩
  · intro type hne
    simp [calculatePayrollSetup, numberOrZero, hne]
  · intro rows
    have h := totalSetup_foldl rows 0
    simpa [totalSetup] using h

/-- Witness of the amended C19 at the status Existing. -/
theorem calculatePayrollSetup_spec_witness :
    calculatePayrollSetup "Existing" = none ∧
    numberOrZero (calculatePayrollSetup "Existing") = 0 :=
  calculatePayrollSetup_spec.2.1 "Existing" (by decide)

/-! ## Order of the sales tax rows -/

/-- C20: the sales tax calculation is order-sensitive: the counts 5, 1 and their
reordering 1, 5 give the row of 5 certificates the rates 450 and 435, and the
row of 1 certificate the rates 75 and 90. -/
theorem calculateSalesTaxRates_order_sensitive :
    ∃ counts reordered : List Nat, reordered.Perm counts ∧
      ¬ (reordered.zip (calculateSalesTaxRates (reordered.map fun c : Nat => some (c : Int)))).Perm
          (counts.zip (calculateSalesTaxRates (counts.map fun c : Nat => some (c : Int)))) ∧
      counts = [5, 1] ∧ reordered = [1, 5] ∧
      calculateSalesTaxRates (counts.map fun c : Nat => some (c : Int)) = [450, 75] ∧
      calculateSalesTaxRates (reordered.map fun c : Nat => some (c : Int)) = [90, 435] := by
  refine ⟨[5, 1], [1, 5], by decide, by decide, rfl, rfl, by decide, by decide⟩

/-! ## The averages of an account -/

/-- The sums that `calculateAccountAverages` accumulates, from any start. -/
theorem averages_foldl (data : List MonthRecord) : ∀ init : Averages,
    data.foldl (fun acc month =>
        ({ total := acc.total + parseIntOrZero month.total.parseInt
           deposits := acc.deposits + parseIntOrZero month.deposits.parseInt
           checks := acc.checks + parseIntOrZero month.checks.parseInt } : Averages)) init =
      { total := init.total + (data.map fun r => fieldCount r.total).sum
        deposits := init.deposits + (data.map fun r => fieldCount r.deposits).sum
        checks := init.checks + (data.map fun r => fieldCount r.checks).sum } := by
  induction data with
  | nil => intro init; simp
  | cons r rest ih =>
    intro init
    rw [List.foldl_cons, ih]
    simp only [List.map_cons, List.sum_cons, fieldCount, Averages.mk.injEq]
    refine ⟨?_, ?_, ?_⟩ <;> omega

/-- Rounding up the ceiling of a non-negative mean gives the least multiple of 5
that is at least the mean. -/
theorem roundUp_ceil_least (sum : Int) (count : Nat) (hsum : 0 ≤ sum) (hcount : 0 < count) :
    IsLeastMultipleOfFive
      (roundUpToNearestFiveOrZero (Int.ceil ((sum : ℚ) / (count : ℚ))))
      ((sum : ℚ) / (count : ℚ)) := by
  have hx : (0 : ℚ) ≤ (sum : ℚ) / (count : ℚ) := by positivity
  have hc : 0 ≤ Int.ceil ((sum : ℚ) / (count : ℚ)) := Int.ceil_nonneg hx
  have hle := Int.le_ceil ((sum : ℚ) / (count : ℚ))
  have hmin : ∀ m : Int, (sum : ℚ) / (count : ℚ) ≤ (m : ℚ) →
      Int.ceil ((sum : ℚ) / (count : ℚ)) ≤ m := fun m h => Int.ceil_le.mpr h
  generalize Int.ceil ((sum : ℚ) / (count : ℚ)) = c at hc hle hmin ⊢
  have hr := roundUp_of_nonneg c hc
  have hprop : c ≤ roundUpToNearestFiveOrZero c ∧ 5 ∣ roundUpToNearestFiveOrZero c ∧
      roundUpToNearestFiveOrZero c - c < 5 := by
    rw [hr]; split_ifs <;> omega
  refine ⟨hprop.2.1, ?_, ?_⟩
  · have h1 : (c : ℚ) ≤ (roundUpToNearestFiveOrZero c : ℚ) := by exact_mod_cast hprop.1
    linarith
  · intro m hm hxm
    have h1 := hmin m hxm
    have h2 := hprop.2.1
    have h3 := hprop.2.2
    omega

/-- C11: for every non-empty list of period records whose fields count for
non-negative integers (a missing field counting for 0, its period still counting
in the divisor), `calculateAccountAverages` returns for each of total, deposits
and checks the round-up of the ceiling of sum over count, which is the least
multiple of 5 that is at least the mean; for an empty or absent list it returns
0, 0, 0. -/
theorem calculateAccountAverages_spec :
    (∀ data : List MonthRecord, data ≠ [] →
      (calculateAccountAverages (some data)).total =
        roundUpToNearestFiveOrZero
          (Int.ceil ((((data.map fun r => fieldCount r.total).sum : Int) : ℚ) / (data.length : ℚ))) ∧
      (calculateAccountAverages (some data)).deposits =
        roundUpToNearestFiveOrZero
          (Int.ceil ((((data.map fun r => fieldCount r.deposits).sum : Int) : ℚ) / (data.length : ℚ))) ∧
      (calculateAccountAverages (some data)).checks =
        roundUpToNearestFiveOrZero
          (Int.ceil ((((data.map fun r => fieldCount r.checks).sum : Int) : ℚ) / (data.length : ℚ))) ∧
      ((∀ r ∈ data, 0 ≤ fieldCount r.total ∧ 0 ≤ fieldCount r.deposits ∧ 0 ≤ fieldCount r.checks) →
        IsLeastMultipleOfFive (calculateAccountAverages (some data)).total
          ((((data.map fun r => fieldCount r.total).sum : Int) : ℚ) / (data.length : ℚ)) ∧
        IsLeastMultipleOfFive (calculateAccountAverages (some data)).deposits
          ((((data.map fun r => fieldCount r.deposits).sum : Int) : ℚ) / (data.length : ℚ)) ∧
        IsLeastMultipleOfFive (calculateAccountAverages (some data)).checks
          ((((data.map fun r => fieldCount r.checks).sum : Int) : ℚ) / (data.length : ℚ)))) ∧
    fieldCount FieldValue.undefined = 0 ∧
    calculateAccountAverages (some []) = { total := 0, deposits := 0, checks := 0 } ∧
    calculateAccountAverages none = { total := 0, deposits := 0, checks := 0 } := by
  refine ⟨?_, rfl, rfl, rfl⟩
  intro data hne
  have hlen : data.length ≠ 0 := by
    intro h; exact hne (List.length_eq_zero.mp h)
  have hpos : 0 < data.length := Nat.pos_of_ne_zero hlen
  have hT : (calculateAccountAverages (some data)).total =
      roundUpToNearestFiveOrZero
        (Int.ceil ((((data.map fun r => fieldCount r.total).sum : Int) : ℚ) / (data.length : ℚ))) := by
    simp only [calculateAccountAverages, hlen, if_false, averages_foldl, Int.zero_add]
  have hD : (calculateAccountAverages (some data)).deposits =
      roundUpToNearestFiveOrZero
        (Int.ceil ((((data.map fun r => fieldCount r.deposits).sum : Int) : ℚ) / (data.length : ℚ))) := by
    simp only [calculateAccountAverages, hlen, if_false, averages_foldl, Int.zero_add]
  have hC : (calculateAccountAverages (some data)).checks =
      roundUpToNearestFiveOrZero
        (Int.ceil ((((data.map fun r => fieldCount r.checks).sum : Int) : ℚ) / (data.length : ℚ))) := by
    simp only [calculateAccountAverages, hlen, if_false, averages_foldl, Int.zero_add]
  refine ⟨hT, hD, hC, ?_⟩
  intro hnonneg
  have hsum : ∀ f : MonthRecord → Int, (∀ r ∈ data, 0 ≤ f r) → 0 ≤ (data.map f).sum := by
    intro f hf
    apply List.sum_nonneg
    intro x hx
    obtain ⟨r, hr, rfl⟩ := List.mem_map.mp hx
    exact hf r hr
  rw [hT, hD, hC]
  exact ⟨roundUp_ceil_least _ _ (hsum _ fun r hr => (hnonneg r hr).1) hpos,
    roundUp_ceil_least _ _ (hsum _ fun r hr => (hnonneg r hr).2.1) hpos,
    roundUp_ceil_least _ _ (hsum _ fun r hr => (hnonneg r hr).2.2) hpos⟩

/-- Witness of C11 on two periods with the totals 12 and 21, the second one
without deposits: the mean total 16.5 gives 20, the mean of the deposits 3 and
of a missing field gives 5. -/
theorem calculateAccountAverages_spec_witness :
    (calculateAccountAverages (some
      [{ total := FieldValue.text (some 12) (some 12),
         deposits := FieldValue.text (some 3) (some 3), checks := FieldValue.undefined },
       { total := FieldValue.text (some 21) (some 21),
         deposits := FieldValue.undefined, checks := FieldValue.undefined }])).total =
      roundUpToNearestFiveOrZero (Int.ceil ((((12 + 21 : Int) : ℚ)) / 2)) ∧
    roundUpToNearestFiveOrZero (Int.ceil ((((12 + 21 : Int) : ℚ)) / 2)) = 20 ∧
    IsLeastMultipleOfFive (calculateAccountAverages (some
      [{ total := FieldValue.text (some 12) (some 12),
         deposits := FieldValue.text (some 3) (some 3), checks := FieldValue.undefined },
       { total := FieldValue.text (some 21) (some 21),
         deposits := FieldValue.undefined, checks := FieldValue.undefined }])).deposits
      ((((3 + 0 : Int) : ℚ)) / 2) := by
  have h := calculateAccountAverages_spec.1
    [{ total := FieldValue.text (some 12) (some 12),
       deposits := FieldValue.text (some 3) (some 3), checks := FieldValue.undefined },
     { total := FieldValue.text (some 21) (some 21),
       deposits := FieldValue.undefined, checks := FieldValue.undefined }] (by simp)
  refine ⟨?_, ?_, ?_⟩
  · simpa [fieldCount, parseIntOrZero, FieldValue.parseInt] using h.1
  · have hceil : Int.ceil ((((12 + 21 : Int) : ℚ)) / 2) = 17 := by
      rw [Int.ceil_eq_iff]; norm_num
    rw [hceil]; decide
  · have h2 := (h.2.2.2 (by
      intro r hr
      simp only [List.mem_cons, List.mem_singleton, List.not_mem_nil, or_false] at hr
      rcases hr with rfl | rfl <;> decide)).2.1
    simpa [fieldCount, parseIntOrZero, FieldValue.parseInt] using h2

/-! ## Monotonicity and sign of the account rate -/

/-- On non-negative integers the rounding is monotone. -/
theorem roundUp_mono_of_nonneg (a b : Int) (ha : 0 ≤ a) (hab : a ≤ b) :
    roundUpToNearestFiveOrZero a ≤ roundUpToNearestFiveOrZero b := by
  rw [roundUp_of_nonneg a ha, roundUp_of_nonneg b (le_trans ha hab)]
  split_ifs <;> omega

/-- The base fee is positive. -/
theorem flatFee_pos (accountIndex : Nat) : 0 < calculateBooksFlatFee accountIndex := by
  unfold calculateBooksFlatFee
  split_ifs <;> decide

/-- C12 as stated fails: with 100 deposits the first account is charged 155 at
an average total of 150 and 115 at an average total of 155, where the deposit
discount has set in. -/
theorem rate_not_monotone_counterexample :
    (0 : Int) < 150 ∧ (150 : Int) ≤ 155 ∧
    calculateBooksAccountRate 0 "Checking" 150 100 0 = 155 ∧
    calculateBooksAccountRate 0 "Checking" 155 100 0 = 115 ∧
    ¬ (calculateBooksAccountRate 0 "Checking" 150 100 0 ≤
        calculateBooksAccountRate 0 "Checking" 155 100 0) := by
  have h1 : calculateBooksAccountRate 0 "Checking" 150 100 0 = 155 := by
    rw [rate_eq_int _ _ _ _ _ (by decide)]; decide
  have h2 : calculateBooksAccountRate 0 "Checking" 155 100 0 = 115 := by
    rw [rate_eq_int _ _ _ _ _ (by decide)]; decide
  refine ⟨by decide, by decide, h1, h2, ?_⟩
  rw [h1, h2]; decide

/-- C12, amended: for every position index, every category and fixed average
deposits and checks, with the deposits not above the lower total, the rate is
non-decreasing from `t1` to `t2` when `0 < t1 ≤ t2`, unless the deposit discount
sets in between them (`t1 ≤ 150 < t2` with deposits at least half of `t2`). -/
theorem rate_monotone_within_schedule (accountIndex : Nat) (accountType : String)
    (t1 t2 averageDeposits averageChecks : Int)
    (hpos : 0 < t1) (hle : t1 ≤ t2) (hdep : averageDeposits ≤ t1)
    (honset : ¬ (t1 ≤ 150 ∧ 150 < t2 ∧ t2 ≤ 2 * averageDeposits)) :
    calculateBooksAccountRate accountIndex accountType t1 averageDeposits averageChecks ≤
      calculateBooksAccountRate accountIndex accountType t2 averageDeposits averageChecks := by
  by_cases hty : accountType ∈ flatFeeTypes
  · unfold calculateBooksAccountRate
    simp only [hty, if_true, le_refl]
  · rw [rate_eq_int _ _ _ _ _ hty, rate_eq_int _ _ _ _ _ hty]
    have hbase := flatFee_pos accountIndex
    generalize calculateBooksFlatFee accountIndex = base at hbase
    have h1 : t1 ≠ 0 := by omega
    have h2 : t2 ≠ 0 := by omega
    simp only [h1, h2, if_false]
    apply roundUp_mono_of_nonneg
    · split_ifs <;> omega
    · split_ifs <;> omega

/-- Witness of the amended C12 above the onset of the discount: the totals 155
and 200 with 100 deposits. -/
theorem rate_monotone_within_schedule_witness :
    calculateBooksAccountRate 0 "Checking" 155 100 0 ≤
      calculateBooksAccountRate 0 "Checking" 200 100 0 :=
  rate_monotone_within_schedule 0 "Checking" 155 200 100 0 (by decide) (by decide) (by decide)
    (by decide)

/-- C13 fails on the code: with an average total of 200 and average deposits of
485 the transaction fee of a checking account is negative (-36.125) and the
rate of the first account is -5. -/
theorem negative_rate_at_200_485 :
    calculateTransactionFees 200 485 "Checking" = -36125 / 1000 ∧
    calculateTransactionFees 200 485 "Checking" < 0 ∧
    calculateBooksAccountRate 0 "Checking" 200 485 0 = -5 ∧
    calculateBooksAccountRate 0 "Checking" 200 485 0 < 0 := by
  have hfee : calculateTransactionFees 200 485 "Checking" = -36125 / 1000 := by
    unfold calculateTransactionFees
    simp only [parseIntOrZero_some]
    rw [if_neg (by decide), if_neg (by decide), if_pos (by norm_num)]
    norm_num
  have hrate : calculateBooksAccountRate 0 "Checking" 200 485 0 = -5 := by
    rw [rate_eq_int _ _ _ _ _ (by decide)]; decide
  refine ⟨hfee, ?_, hrate, ?_⟩
  · rw [hfee]; norm_num
  · rw [hrate]; decide

/-! ## The requirement resolver -/

/-- C15: deposits are required iff the category is Checking or Savings and the
average total is above 150, checks are required iff the category is Checking or
Savings and the average total is above 50, also for an account flagged new,
whose total counts as at least 30; an average of exactly 150, resp. 50, does not
enable the field, and Credit Card never requires either. -/
theorem requirement_resolver_spec (type : String) (averageTotal : Int) :
    (depositsRequired type averageTotal = true ↔
      (type = "Checking" ∨ type = "Savings") ∧ averageTotal > 150) ∧
    (checksRequired type averageTotal = true ↔
      (type = "Checking" ∨ type = "Savings") ∧ averageTotal > 50) ∧
    (∀ (isNew : Bool) (averages : Averages),
      (depositsRequired type (validationTotal isNew averages) = true ↔
        (type = "Checking" ∨ type = "Savings") ∧ averages.total > 150) ∧
      (checksRequired type (validationTotal isNew averages) = true ↔
        (type = "Checking" ∨ type = "Savings") ∧ averages.total > 50)) ∧
    isDepositsRequired 150 = false ∧ isDepositsRequired 151 = true ∧
    depositsRequired type 150 = false ∧
    isChecksRequired 50 "Checking" = false ∧ isChecksRequired 51 "Checking" = true ∧
    checksRequired type 50 = false ∧
    depositsRequired "Credit Card" averageTotal = false ∧
    checksRequired "Credit Card" averageTotal = false := by
  have hdep : ∀ t : Int, depositsRequired type t = true ↔
      (type = "Checking" ∨ type = "Savings") ∧ t > 150 := by
    intro t
    simp [depositsRequired, showDepositsChecks, isDepositsRequired]
  have hchk : ∀ t : Int, checksRequired type t = true ↔
      (type = "Checking" ∨ type = "Savings") ∧ t > 50 := by
    intro t
    simp only [checksRequired, showDepositsChecks, isChecksRequired, Bool.and_eq_true,
      decide_eq_true_eq]
    constructor
    · rintro ⟨h1, h2⟩
      refine ⟨h1, ?_⟩
      have hn : ¬ (type ≠ "Checking" ∧ type ≠ "Savings") := by
        rintro ⟨a, b⟩; rcases h1 with h | h <;> contradiction
      rw [if_neg hn] at h2
      exact of_decide_eq_true h2
    · rintro ⟨h1, h2⟩
      refine ⟨h1, ?_⟩
      have hn : ¬ (type ≠ "Checking" ∧ type ≠ "Savings") := by
        rintro ⟨a, b⟩; rcases h1 with h | h <;> contradiction
      rw [if_neg hn]
      exact decide_eq_true h2
  refine ⟨hdep _, hchk _, ?_, by decide, by decide, ?_, by decide, by decide, ?_, ?_, ?_⟩
  · intro isNew averages
    rw [hdep, hchk]
    cases isNew
    · simp [validationTotal]
    · simp only [validationTotal, if_true]
      constructor
      · constructor
        · rintro ⟨h1, h2⟩; exact ⟨h1, by omega⟩
        · rintro ⟨h1, h2⟩; exact ⟨h1, by omega⟩
      · constructor
        · rintro ⟨h1, h2⟩; exact ⟨h1, by omega⟩
        · rintro ⟨h1, h2⟩; exact ⟨h1, by omega⟩
  · cases h : depositsRequired type 150
    · rfl
    · have := ((hdep 150).mp h).2; omega
  · cases h : checksRequired type 50
    · rfl
    · have := ((hchk 50).mp h).2; omega
  · simp [depositsRequired, showDepositsChecks]
  · simp [checksRequired, showDepositsChecks]

/-! ## Validation of the period fields -/

/-- The averages of a non-empty list of records, field by field. -/
theorem averages_of_ne_nil (data : List MonthRecord) (hne : data ≠ []) :
    calculateAccountAverages (some data) =
      { total := roundUpToNearestFiveOrZero (Int.ceil
          ((((data.map fun r => fieldCount r.total).sum : Int) : ℚ) / (data.length : ℚ)))
        deposits := roundUpToNearestFiveOrZero (Int.ceil
          ((((data.map fun r => fieldCount r.deposits).sum : Int) : ℚ) / (data.length : ℚ)))
        checks := roundUpToNearestFiveOrZero (Int.ceil
          ((((data.map fun r => fieldCount r.checks).sum : Int) : ℚ) / (data.length : ℚ))) } := by
  have hlen : data.length ≠ 0 := by
    intro h; exact hne (List.length_eq_zero.mp h)
  simp only [calculateAccountAverages, hlen, if_false, averages_foldl, Int.zero_add]

/-- The test of a total in the source rejects the totals that are missing, empty,
not a number or not positive. -/
theorem totalRejected_iff (field : FieldValue) :
    totalRejected field = true ↔ TotalMissingOrNotPositive field := by
  cases field with
  | undefined => simp [totalRejected, TotalMissingOrNotPositive]
  | empty => simp [totalRejected, TotalMissingOrNotPositive]
  | text number parsed =>
    cases number with
    | none => simp [totalRejected, TotalMissingOrNotPositive, FieldValue.toNumber]
    | some q => simp [totalRejected, TotalMissingOrNotPositive, FieldValue.toNumber]

/-- A period key is among the errors of an account iff the account is not
flat-fee and the callback sets the key for one of the available months. -/
theorem mem_validateAccount_period (newAccountChecks : List (Option Bool)) (frequency : String)
    (currentMonth : Nat) (account : Account) (idx : Nat) (key : ErrorKey)
    (hkey : key ≠ ErrorKey.bankName ∧ key ≠ ErrorKey.lastFour ∧ key ≠ ErrorKey.accountType ∧
      key ≠ ErrorKey.startingMonth) :
    key ∈ validateAccount newAccountChecks frequency currentMonth account idx ↔
      isFlatFee account.accountType = false ∧
      ∃ month ∈ getAvailableMonths account frequency currentMonth,
        key ∈ monthErrors account (isNewAccount newAccountChecks idx)
          (validationTotal (isNewAccount newAccountChecks idx)
            (calculateAccountAverages (some ((getAvailableMonths account frequency
              currentMonth).map fun month => transactionsOf account month)))) month := by
  obtain ⟨h1, h2, h3, h4⟩ := hkey
  have e1 : key ∉ (if account.bankName.trim = "" then [ErrorKey.bankName] else []) := by
    split_ifs <;> simp [h1]
  have e2 : key ∉ (if account.lastFour.trim = "" then [ErrorKey.lastFour] else []) := by
    split_ifs <;> simp [h2]
  have e3 : key ∉ (if idx = 0 then
      (if account.accountType = "" then [ErrorKey.accountType] else [])
      else (if account.accountType = "" then [ErrorKey.accountType] else [])) := by
    split_ifs <;> simp [h3]
  have e4 : key ∉ (if account.startingMonth = "" then [ErrorKey.startingMonth] else []) := by
    split_ifs <;> simp [h4]
  unfold validateAccount
  simp only [List.mem_append, e1, e2, e3, e4, false_or]
  cases hflat : isFlatFee account.accountType
  · simp [List.mem_flatMap]
  · simp

/-- The callback sets the key of a total for its own month only, for an account
that is not flagged new and shows a total that the test rejects. -/
theorem mem_monthErrors_total (account : Account) (isNew : Bool) (total : Int)
    (month key : String) :
    ErrorKey.total key ∈ monthErrors account isNew total month ↔
      key = month ∧ isNew = false ∧ showTotal account.accountType = true ∧
        totalRejected (transactionsOf account month).total = true := by
  unfold monthErrors
  simp only [List.mem_append]
  have hd : ErrorKey.total key ∉
      (if (showDepositsChecks account.accountType &&
          depositsRequired account.accountType total) = true then
        (if countRejected (transactionsOf account month).deposits = true
          then [ErrorKey.deposits month] else [])
       else []) := by
    split_ifs <;> simp
  have hc : ErrorKey.total key ∉
      (if (showDepositsChecks account.accountType &&
          checksRequired account.accountType total) = true then
        (if countRejected (transactionsOf account month).checks = true
          then [ErrorKey.checks month] else [])
       else []) := by
    split_ifs <;> simp
  simp only [hd, hc, or_false]
  cases isNew <;> cases showTotal account.accountType <;>
    cases totalRejected (transactionsOf account month).total <;> simp

/-- The averages of `marchAccount` over its only available month in April. -/
theorem marchAccount_averages :
    calculateAccountAverages (some ((getAvailableMonths marchAccount "monthly" 3).map
      fun month => transactionsOf marchAccount month)) =
      { total := 200, deposits := 0, checks := 0 } := by
  have hav : getAvailableMonths marchAccount "monthly" 3 = ["March"] := by decide
  have htx : transactionsOf marchAccount "March" =
      { total := FieldValue.text (some 200) (some 200), deposits := FieldValue.undefined,
        checks := FieldValue.undefined } := by decide
  rw [hav, List.map_cons, List.map_nil, htx, averages_of_ne_nil _ (by simp)]
  have h200 : Int.ceil ((200 : ℚ)) = 200 := by
    rw [Int.ceil_eq_iff]; norm_num
  have h0 : Int.ceil ((0 : ℚ)) = 0 := by
    rw [Int.ceil_eq_iff]; norm_num
  simp [fieldCount, parseIntOrZero, FieldValue.parseInt, h200, h0]
  decide

/-- C16 fails on the code: for a checking account flagged new with 200
transactions entered for March and nothing entered for deposits and checks,
`validateAccount` flags `deposits_March` and `checks_March`, where the comments
of the function say that a new account requires no transaction fields. -/
theorem new_account_deposits_flagged :
    isNewAccount [some true] 0 = true ∧
    ErrorKey.deposits "March" ∈ validateAccount [some true] "monthly" 3 marchAccount 0 ∧
    ErrorKey.checks "March" ∈ validateAccount [some true] "monthly" 3 marchAccount 0 := by
  refine ⟨by decide, ?_, ?_⟩
  · rw [mem_validateAccount_period _ _ _ _ _ _ (by decide), marchAccount_averages]
    exact ⟨by decide, "March", by decide, by decide⟩
  · rw [mem_validateAccount_period _ _ _ _ _ _ (by decide), marchAccount_averages]
    exact ⟨by decide, "March", by decide, by decide⟩

/-- For every flat-fee account `validateAccount` flags no period field, whatever
its period records are, and for every account flagged new it flags no
`total_<month>` key. -/
theorem validateAccount_no_period_field (newAccountChecks : List (Option Bool))
    (frequency : String) (currentMonth : Nat) (account : Account) (idx : Nat) (month : String) :
    ((account.accountType = "Jobox" ∨ account.accountType = "Paypal" ∨
        account.accountType = "Amazon") →
      ErrorKey.total month ∉ validateAccount newAccountChecks frequency currentMonth account idx ∧
      ErrorKey.deposits month ∉
        validateAccount newAccountChecks frequency currentMonth account idx ∧
      ErrorKey.checks month ∉
        validateAccount newAccountChecks frequency currentMonth account idx) ∧
    (isNewAccount newAccountChecks idx = true →
      ErrorKey.total month ∉
        validateAccount newAccountChecks frequency currentMonth account idx) := by
  constructor
  · intro hflat
    have hf : isFlatFee account.accountType = true := by
      simp only [isFlatFee, decide_eq_true_eq]; exact hflat
    refine ⟨?_, ?_, ?_⟩ <;>
    · rw [mem_validateAccount_period _ _ _ _ _ _ (by simp), hf]
      simp
  · intro hnew
    rw [mem_validateAccount_period _ _ _ _ _ _ (by simp)]
    rintro ⟨_, m, _, hm⟩
    rw [mem_monthErrors_total, hnew] at hm
    exact Bool.noConfusion hm.2.1

/-- The period fields of a Paypal account, and the total of `marchAccount`
flagged new, are not flagged. -/
theorem validateAccount_no_period_field_witness :
    (ErrorKey.total "March" ∉
        validateAccount [] "monthly" 3 { marchAccount with accountType := "Paypal" } 0 ∧
      ErrorKey.deposits "March" ∉
        validateAccount [] "monthly" 3 { marchAccount with accountType := "Paypal" } 0 ∧
      ErrorKey.checks "March" ∉
        validateAccount [] "monthly" 3 { marchAccount with accountType := "Paypal" } 0) ∧
    ErrorKey.total "March" ∉ validateAccount [some true] "monthly" 3 marchAccount 0 :=
  ⟨(validateAccount_no_period_field [] "monthly" 3 { marchAccount with accountType := "Paypal" }
      0 "March").1 (by decide),
   (validateAccount_no_period_field [some true] "monthly" 3 marchAccount 0 "March").2
      (by decide)⟩

/-- C17: for every account that is not flagged new and whose category is
Checking, Savings or Credit Card, `validateAccount` flags `total_<month>` iff
the month is an available period of the account and the total of that period is
missing, empty, not a number or not a positive number; no such key is flagged
for a period that is not available. -/
theorem validateAccount_total_iff (newAccountChecks : List (Option Bool))
    (frequency : String) (currentMonth : Nat) (account : Account) (idx : Nat)
    (hnew : isNewAccount newAccountChecks idx = false)
    (hty : account.accountType = "Checking" ∨ account.accountType = "Savings" ∨
      account.accountType = "Credit Card")
    (month : String) :
    ErrorKey.total month ∈ validateAccount newAccountChecks frequency currentMonth account idx ↔
      month ∈ getAvailableMonths account frequency currentMonth ∧
        TotalMissingOrNotPositive (transactionsOf account month).total := by
  have hflat : isFlatFee account.accountType = false := by
    rcases hty with h | h | h <;> rw [h] <;> decide
  have hshow : showTotal account.accountType = true := by
    rcases hty with h | h | h <;> rw [h] <;> decide
  rw [mem_validateAccount_period _ _ _ _ _ _ (by simp)]
  simp only [mem_monthErrors_total, hflat, hnew, hshow, true_and, totalRejected_iff]
  constructor
  · rintro ⟨m, hm, rfl, hrej⟩
    exact ⟨hm, hrej⟩
  · rintro ⟨hm, hrej⟩
    exact ⟨month, hm, rfl, hrej⟩

/-- Witness of C17: `marchAccount`, not flagged new, seen in June: April is
available and has no total. -/
theorem validateAccount_total_iff_witness :
    isNewAccount [] 0 = false ∧
    (ErrorKey.total "April" ∈ validateAccount [] "monthly" 5 marchAccount 0 ↔
      "April" ∈ getAvailableMonths marchAccount "monthly" 5 ∧
        TotalMissingOrNotPositive (transactionsOf marchAccount "April").total) :=
  ⟨by decide, validateAccount_total_iff [] "monthly" 5 marchAccount 0 (by decide) (by decide)
    "April"⟩

/-! ## The annual months -/

/-- Adding the elements of a list to a set adds exactly these elements. -/
theorem mem_foldl_setAdd (xs : List String) (month : String) : ∀ set : List String,
    month ∈ xs.foldl setAdd set ↔ month ∈ set ∨ month ∈ xs := by
  induction xs with
  | nil => intro set; simp
  | cons x rest ih =>
    intro set
    rw [List.foldl_cons, ih]
    unfold setAdd
    by_cases hx : x ∈ set
    · rw [if_pos hx]
      constructor
      · rintro (h | h)
        · exact Or.inl h
        · exact Or.inr (List.mem_cons_of_mem _ h)
      · rintro (h | h)
        · exact Or.inl h
        · rcases List.mem_cons.mp h with rfl | h
          · exact Or.inl hx
          · exact Or.inr h
    · rw [if_neg hx]
      simp only [List.mem_append, List.mem_singleton, List.mem_cons]
      tauto

/-- Adding the elements of a list to a set keeps the set without repetition. -/
theorem nodup_foldl_setAdd (xs : List String) : ∀ set : List String,
    set.Nodup → (xs.foldl setAdd set).Nodup := by
  induction xs with
  | nil => intro set h; exact h
  | cons x rest ih =>
    intro set h
    rw [List.foldl_cons]
    apply ih
    unfold setAdd
    by_cases hx : x ∈ set
    · rw [if_pos hx]; exact h
    · rw [if_neg hx]
      exact List.Nodup.append h (List.nodup_singleton x) (by simpa using hx)

/-- The set of all months holds the months available for at least one account,
each once. -/
theorem allMonths_spec (accountsData : List AnnualAccountData) : ∀ set : List String,
    set.Nodup →
    (accountsData.foldl (fun set account => account.availableMonths.foldl setAdd set) set).Nodup ∧
    ∀ month : String,
      month ∈ accountsData.foldl
        (fun set account => account.availableMonths.foldl setAdd set) set ↔
      month ∈ set ∨ ∃ account ∈ accountsData, month ∈ account.availableMonths := by
  induction accountsData with
  | nil => intro set h; simp [h]
  | cons a rest ih =>
    intro set h
    rw [List.foldl_cons]
    obtain ⟨hn, hm⟩ := ih _ (nodup_foldl_setAdd a.availableMonths set h)
    refine ⟨hn, ?_⟩
    intro month
    rw [hm, mem_foldl_setAdd]
    simp only [List.mem_cons, exists_eq_or_imp]
    tauto

/-- The rate of a month before the floor: the rates of the accounts that have
the month, added up from any start. -/
theorem monthlyRate_foldl (month : String) (accountsData : List AnnualAccountData) :
    ∀ init : Int,
    accountsData.foldl (fun monthlyRate account =>
        match account.monthlyData.lookup month with
        | some data => monthlyRate + data.rate
        | none => monthlyRate) init = init + specMonthSum accountsData month := by
  induction accountsData with
  | nil => intro init; simp [specMonthSum]
  | cons a rest ih =>
    intro init
    rw [List.foldl_cons, ih]
    unfold specMonthSum
    simp only [List.map_cons, List.sum_cons]
    cases a.monthlyData.lookup month with
    | none => simp
    | some data => simp only []; ring

/-- The sum of the rates of a list of active months, added up from any start. -/
theorem activeMonths_foldl (activeMonths : List ActiveMonth) : ∀ init : Int,
    activeMonths.foldl (fun total month => total + month.rate) init =
      init + (activeMonths.map fun month => month.rate).sum := by
  induction activeMonths with
  | nil => intro init; simp
  | cons a rest ih =>
    intro init
    rw [List.foldl_cons, ih]
    simp only [List.map_cons, List.sum_cons]
    omega

/-- C14: for every array of annual account data, `getActiveMonthsData` yields,
for each calendar month that is available for at least one account, exactly one
entry, whose rate is the maximum of 110 and the sum of the rates of the accounts
that have that month, an account without that month contributing 0; it yields
no other entry, and `calculateTotalAnnualRate` is the sum of the rates of the
entries. -/
theorem getActiveMonthsData_spec (accountsData : List AnnualAccountData) :
    (∀ entry ∈ getActiveMonthsData accountsData,
      (∃ account ∈ accountsData, entry.month ∈ account.availableMonths) ∧
      entry.rate = max (specMonthSum accountsData entry.month) 110) ∧
    (∀ account ∈ accountsData, ∀ month ∈ account.availableMonths,
      ((getActiveMonthsData accountsData).map fun entry => entry.month).count month = 1) ∧
    calculateTotalAnnualRate accountsData =
      ((getActiveMonthsData accountsData).map fun entry => entry.rate).sum := by
  have htotal : calculateTotalAnnualRate accountsData =
      ((getActiveMonthsData accountsData).map fun entry => entry.rate).sum := by
    unfold calculateTotalAnnualRate
    simp only [activeMonths_foldl, Int.zero_add]
  by_cases hlen : accountsData.length = 0
  · have hnil : accountsData = [] := List.length_eq_zero.mp hlen
    subst hnil
    refine ⟨?_, ?_, htotal⟩
    · intro entry h; simp [getActiveMonthsData] at h
    · intro account h; simp at h
  · obtain ⟨hnodup, hmem⟩ := allMonths_spec accountsData [] List.nodup_nil
    have hperm : (getActiveMonthsData accountsData).Perm
        ((accountsData.foldl (fun set account => account.availableMonths.foldl setAdd set)
          []).map fun month =>
            ({ month := month, rate := max (specMonthSum accountsData month) 110 } :
              ActiveMonth)) := by
      unfold getActiveMonthsData
      simp only [hlen, if_false, monthlyRate_foldl, Int.zero_add]
      exact List.perm_insertionSort _ _
    refine ⟨?_, ?_, htotal⟩
    · intro entry hentry
      have h := hperm.mem_iff.mp hentry
      obtain ⟨month, hmonth, rfl⟩ := List.mem_map.mp h
      have h2 := (hmem month).mp hmonth
      simp only [List.not_mem_nil, false_or] at h2
      exact ⟨h2, rfl⟩
    · intro account haccount month hmonth
      have hp := (hperm.map fun entry : ActiveMonth => entry.month).count_eq month
      rw [hp, List.map_map]
      have hid : ((fun entry : ActiveMonth => entry.month) ∘ fun month =>
          ({ month := month, rate := max (specMonthSum accountsData month) 110 } :
            ActiveMonth)) = id := by
        funext x; rfl
      rw [hid, List.map_id]
      exact List.count_eq_one_of_mem hnodup
        ((hmem month).mpr (Or.inr ⟨account, haccount, hmonth⟩))

/-- Witness of C14 on `annualExample`: January costs 110 (50 raised to the
floor), March 160 and April 110 (100 raised to the floor), 380 in total. -/
theorem getActiveMonthsData_spec_witness :
    getActiveMonthsData annualExample =
      [{ month := "January", rate := 110 }, { month := "March", rate := 160 },
       { month := "April", rate := 110 }] ∧
    (160 : Int) = max (specMonthSum annualExample "March") 110 ∧
    ((getActiveMonthsData annualExample).map fun entry => entry.month).count "March" = 1 ∧
    calculateTotalAnnualRate annualExample = 380 :=
  ⟨by decide,
   ((getActiveMonthsData_spec annualExample).1 { month := "March", rate := 160 } (by decide)).2,
   (getActiveMonthsData_spec annualExample).2.1 _ (List.mem_cons_self _ _) "March" (by decide),
   by decide⟩

/-! ## The sales tax total -/

/-- The prices of the counter values up to `before`, and then of `count` more,
add up to the total of `before + count` certificates. -/
theorem specSalesTaxTotal_add (count : Nat) : ∀ before : Nat,
    specSalesTaxTotal before + specRowRate before count = specSalesTaxTotal (before + count) := by
  induction count with
  | zero => intro before; simp [specRowRate]
  | succ n ih =>
    intro before
    rw [specRowRate_succ]
    have hstep : specSalesTaxTotal before + specUnitPrice (before + 1) =
        specSalesTaxTotal (before + 1) := by
      unfold specSalesTaxTotal specUnitPrice
      split_ifs <;> omega
    have h := ih (before + 1)
    have harg : before + 1 + n = before + (n + 1) := by omega
    rw [harg] at h
    omega

/-- The rates of the rows priced from a counter that stands at `totalCerts` add
up to the difference of two totals. -/
theorem salesTaxRows_sum (counts : List Nat) : ∀ totalCerts : Nat,
    specSalesTaxTotal totalCerts +
        (salesTaxRows (counts.map fun c : Nat => some (c : Int)) totalCerts).sum =
      specSalesTaxTotal (totalCerts + counts.sum) := by
  induction counts with
  | nil => intro totalCerts; simp [salesTaxRows]
  | cons c rest ih =>
    intro totalCerts
    rw [List.map_cons, salesTaxRows, parseIntOrZero_some, Int.toNat_ofNat, certLoop_eq]
    simp only [List.sum_cons, Nat.zero_add]
    have h1 := specSalesTaxTotal_add c totalCerts
    have h2 := ih (totalCerts + c)
    have harg : totalCerts + c + rest.sum = totalCerts + (c + rest.sum) := by omega
    rw [harg] at h2
    omega

/-- C25: for every list of certificate counts with sum `N`, the rates returned
by `calculateSalesTaxRates` add up to the rate of the single row of `N`
certificates, which is `90 * min(N, 5) + 75 * min(max(N - 5, 0), 5) +
60 * max(N - 10, 0)`; hence two lists with the same sum, such as a list and a
reordering, a splitting or a merging of its rows, have the same total. -/
theorem salesTax_total_spec (counts : List Nat) :
    (calculateSalesTaxRates (counts.map fun c : Nat => some (c : Int))).sum =
      specSalesTaxTotal counts.sum ∧
    calculateSalesTaxRates [some (counts.sum : Int)] = [specSalesTaxTotal counts.sum] ∧
    (∀ other : List Nat, other.sum = counts.sum →
      (calculateSalesTaxRates (other.map fun c : Nat => some (c : Int))).sum =
        (calculateSalesTaxRates (counts.map fun c : Nat => some (c : Int))).sum) ∧
    (∀ other : List Nat, other.Perm counts →
      (calculateSalesTaxRates (other.map fun c : Nat => some (c : Int))).sum =
        (calculateSalesTaxRates (counts.map fun c : Nat => some (c : Int))).sum) := by
  have hzero : specSalesTaxTotal 0 = 0 := by decide
  have hsum : ∀ l : List Nat,
      (calculateSalesTaxRates (l.map fun c : Nat => some (c : Int))).sum =
        specSalesTaxTotal l.sum := by
    intro l
    have h := salesTaxRows_sum l 0
    rw [hzero, Nat.zero_add, Nat.zero_add] at h
    exact h
  refine ⟨hsum counts, ?_, ?_, ?_⟩
  · have h := hsum [counts.sum]
    have hone : calculateSalesTaxRates [some (counts.sum : Int)] =
        [specRowRate 0 counts.sum] := by
      unfold calculateSalesTaxRates
      rw [salesTaxRows, parseIntOrZero_some, Int.toNat_ofNat, certLoop_eq]
      simp [salesTaxRows]
    rw [hone]
    simp only [List.map_cons, List.map_nil, hone, List.sum_cons, List.sum_nil,
      Nat.add_zero] at h
    rw [h]
  · intro other hother
    rw [hsum other, hsum counts, hother]
  · intro other hperm
    rw [hsum other, hsum counts, hperm.sum_eq]

/-- Witness of C25: the rows 5, 1 and the rows 1, 5 both cost 525, as the single
row 6 does. -/
theorem salesTax_total_spec_witness :
    (calculateSalesTaxRates ([1, 5].map fun c : Nat => some (c : Int))).sum =
      (calculateSalesTaxRates ([5, 1].map fun c : Nat => some (c : Int))).sum ∧
    (calculateSalesTaxRates ([6].map fun c : Nat => some (c : Int))).sum =
      (calculateSalesTaxRates ([5, 1].map fun c : Nat => some (c : Int))).sum ∧
    (calculateSalesTaxRates ([5, 1].map fun c : Nat => some (c : Int))).sum = 525 :=
  ⟨(salesTax_total_spec [5, 1]).2.2.2 [1, 5] (by decide),
   (salesTax_total_spec [5, 1]).2.2.1 [6] (by decide), by decide⟩

/-! ## No state between two calls -/

/-- C22: `calculateSalesTaxRates` has no hidden state: every call prices its rows
from a running counter that starts from zero, so that the rate of the first row
is the price of the counter values 1 to its own count, whatever rows follow; a
call is therefore not priced from the counter where a call before it stopped,
which after 5 certificates would give 375 instead of 450 for a row of 5. -/
theorem calculateSalesTaxRates_no_hidden_state (certStr : Option Int)
    (rest other : List (Option Int)) :
    calculateSalesTaxRates (certStr :: rest) = salesTaxRows (certStr :: rest) 0 ∧
    (calculateSalesTaxRates (certStr :: rest)).head? =
      some (specRowRate 0 (parseIntOrZero certStr).toNat) ∧
    (calculateSalesTaxRates (certStr :: rest)).head? =
      (calculateSalesTaxRates (certStr :: other)).head? ∧
    (calculateSalesTaxRates [some 5] = [450] ∧ salesTaxRows [some 5] 5 = [375]) := by
  have hhead : ∀ l : List (Option Int), (calculateSalesTaxRates (certStr :: l)).head? =
      some (specRowRate 0 (parseIntOrZero certStr).toNat) := by
    intro l
    unfold calculateSalesTaxRates
    rw [salesTaxRows, certLoop_eq]
    simp
  exact ⟨rfl, hhead rest, by rw [hhead rest, hhead other], by decide, by decide⟩

/-! ## Rounding and the requirement thresholds -/

/-- Rounding up a non-negative integer does not cross a multiple of 5. -/
theorem roundUp_gt_iff (c k : Int) (hc : 0 ≤ c) (hk : 5 ∣ k) :
    k < roundUpToNearestFiveOrZero c ↔ k < c := by
  rw [roundUp_of_nonneg c hc]
  split_ifs <;> omega

/-- The ceiling of a mean exceeds an integer iff the sum exceeds that integer
times the count. -/
theorem lt_ceil_mean_iff (sum k : Int) (count : Nat) (hcount : 0 < count) :
    k < Int.ceil ((sum : ℚ) / (count : ℚ)) ↔ k * (count : Int) < sum := by
  have hpos : (0 : ℚ) < (count : ℚ) := by exact_mod_cast hcount
  rw [Int.lt_ceil, lt_div_iff₀ hpos]
  constructor
  · intro h; exact_mod_cast h
  · intro h; exact_mod_cast h

/-- C26: rounding the average does not move the requirement thresholds: for
every non-empty list of period records whose totals count for non-negative
integers, deposits are required at the average total iff the sum of the totals
exceeds 150 times the number of periods, and checks of a checking account are
required iff the sum exceeds 50 times the number of periods. -/
theorem requirement_thresholds_on_sums (data : List MonthRecord) (hne : data ≠ [])
    (hnonneg : ∀ r ∈ data, 0 ≤ fieldCount r.total) :
    (isDepositsRequired (calculateAccountAverages (some data)).total = true ↔
      150 * (data.length : Int) < (data.map fun r => fieldCount r.total).sum) ∧
    (isChecksRequired (calculateAccountAverages (some data)).total "Checking" = true ↔
      50 * (data.length : Int) < (data.map fun r => fieldCount r.total).sum) := by
  have hlen : 0 < data.length := by
    cases data with
    | nil => exact absurd rfl hne
    | cons r rest => simp
  have hsum : 0 ≤ (data.map fun r => fieldCount r.total).sum := by
    apply List.sum_nonneg
    intro x hx
    obtain ⟨r, hr, rfl⟩ := List.mem_map.mp hx
    exact hnonneg r hr
  have hmean : (0 : ℚ) ≤
      (((data.map fun r => fieldCount r.total).sum : Int) : ℚ) / (data.length : ℚ) := by
    positivity
  have hceil := Int.ceil_nonneg hmean
  rw [averages_of_ne_nil data hne]
  simp only [isDepositsRequired, isChecksRequired, decide_eq_true_eq, gt_iff_lt]
  constructor
  · rw [roundUp_gt_iff _ 150 hceil (by decide), lt_ceil_mean_iff _ _ _ hlen]
  · rw [if_neg (by decide)]
    simp only [decide_eq_true_eq]
    rw [roundUp_gt_iff _ 50 hceil (by decide), lt_ceil_mean_iff _ _ _ hlen]

/-- Witness of C26 on the only record of `marchAccount`, with 200 transactions. -/
theorem requirement_thresholds_on_sums_witness :
    (isDepositsRequired (calculateAccountAverages
        (some [transactionsOf marchAccount "March"])).total = true ↔
      150 * (([transactionsOf marchAccount "March"].length : Nat) : Int) <
        ([transactionsOf marchAccount "March"].map fun r => fieldCount r.total).sum) ∧
    (150 : Int) * 1 < 200 :=
  ⟨(requirement_thresholds_on_sums [transactionsOf marchAccount "March"] (by simp)
      (by
        intro r hr
        rw [List.mem_singleton] at hr
        subst hr
        decide)).1, by decide⟩

/-! ## The rate of an account flagged new -/

/-- C27: flagging an account as new never lowers its monthly rate: for every
position index, category and non-negative integer averages `(t, d, c)` with
`d ≤ t`, the rate at `max(t, 30)` with the deposits and checks kept only above
30 is at least the rate at `(t, d, c)`, and equal to it whenever `t > 30` or the
category is flat-fee. -/
theorem new_account_rate_ge (accountIndex : Nat) (accountType : String) (t d c : Int)
    (ht : 0 ≤ t) (hd : 0 ≤ d) (_hc : 0 ≤ c) (hdt : d ≤ t) :
    calculateBooksAccountRate accountIndex accountType t d c ≤
      calculateBooksAccountRate accountIndex accountType (max t 30)
        (if t > 30 then d else 0) (if t > 30 then c else 0) ∧
    ((t > 30 ∨ accountType = "Jobox" ∨ accountType = "Paypal" ∨ accountType = "Amazon") →
      calculateBooksAccountRate accountIndex accountType (max t 30)
        (if t > 30 then d else 0) (if t > 30 then c else 0) =
      calculateBooksAccountRate accountIndex accountType t d c) := by
  have hmem : accountType ∈ flatFeeTypes ↔
      (accountType = "Jobox" ∨ accountType = "Paypal" ∨ accountType = "Amazon") := by
    simp [flatFeeTypes]
  have heq : (t > 30 ∨ accountType = "Jobox" ∨ accountType = "Paypal" ∨
      accountType = "Amazon") →
      calculateBooksAccountRate accountIndex accountType (max t 30)
        (if t > 30 then d else 0) (if t > 30 then c else 0) =
      calculateBooksAccountRate accountIndex accountType t d c := by
    rintro (h | h)
    · have hmax : max t 30 = t := max_eq_left (by omega)
      rw [hmax, if_pos h, if_pos h]
    · unfold calculateBooksAccountRate
      rw [if_pos (hmem.mpr h), if_pos (hmem.mpr h)]
  refine ⟨?_, heq⟩
  by_cases hgt : t > 30
  · exact le_of_eq (heq (Or.inl hgt)).symm
  · by_cases hty : accountType ∈ flatFeeTypes
    · exact le_of_eq (heq (Or.inr (hmem.mp hty))).symm
    · have hmax : max t 30 = 30 := max_eq_right (by omega)
      rw [hmax, if_neg hgt, if_neg hgt, rate_eq_int _ _ _ _ _ hty, rate_eq_int _ _ _ _ _ hty]
      have hbase := flatFee_pos accountIndex
      generalize calculateBooksFlatFee accountIndex = base at hbase
      apply roundUp_mono_of_nonneg
      · split_ifs <;> omega
      · split_ifs <;> omega

/-- Witness of C27: the first account, a checking account with 20 transactions,
is charged 45 as it is and 55 when flagged new. -/
theorem new_account_rate_ge_witness :
    calculateBooksAccountRate 0 "Checking" 20 10 5 ≤
      calculateBooksAccountRate 0 "Checking" (max 20 30)
        (if (20 : Int) > 30 then 10 else 0) (if (20 : Int) > 30 then 5 else 0) ∧
    calculateBooksAccountRate 0 "Paypal" (max 20 30)
        (if (20 : Int) > 30 then 10 else 0) (if (20 : Int) > 30 then 5 else 0) =
      calculateBooksAccountRate 0 "Paypal" 20 10 5 :=
  ⟨(new_account_rate_ge 0 "Checking" 20 10 5 (by decide) (by decide) (by decide)
      (by decide)).1,
   (new_account_rate_ge 0 "Paypal" 20 10 5 (by decide) (by decide) (by decide)
      (by decide)).2 (Or.inr (Or.inr (Or.inl rfl)))⟩

/-! ## Bounds of the annual discount -/

/-- The discount percentage lies between 0 and one quarter. -/
theorem calculateAnnualDiscount_bounds (T : Int) :
    0 ≤ calculateAnnualDiscount T ∧ calculateAnnualDiscount T ≤ 1 / 4 := by
  rw [calculateAnnualDiscount_cases]
  obtain ⟨p, hp, hcases⟩ := ladder_percent_cases T
  rw [hp]
  have h0 : 0 ≤ p := by omega
  have h25 : p ≤ 25 := by omega
  have h0q : (0 : ℚ) ≤ (p : ℚ) := by exact_mod_cast h0
  have h25q : (p : ℚ) ≤ 25 := by exact_mod_cast h25
  constructor
  · positivity
  · linarith

/-- C28: for every non-negative total annual rate `T`, the discount amount of
`getAnnualPricingData` lies between 0 and `T / 4`, the discounted rate between
`3T / 4` and `T`, and when `T` is a multiple of 5 so is the discounted rate. -/
theorem getAnnualPricingData_bounds (T : Int) (hT : 0 ≤ T) :
    0 ≤ (getAnnualPricingData T).discountAmount ∧
    ((getAnnualPricingData T).discountAmount : ℚ) ≤ (T : ℚ) / 4 ∧
    3 * (T : ℚ) / 4 ≤ ((getAnnualPricingData T).discountedRate : ℚ) ∧
    (getAnnualPricingData T).discountedRate ≤ T ∧
    (5 ∣ T → 5 ∣ (getAnnualPricingData T).discountedRate) := by
  obtain ⟨hp0, hp1⟩ := calculateAnnualDiscount_bounds T
  have hTq : (0 : ℚ) ≤ (T : ℚ) := by exact_mod_cast hT
  have hraw0 : (0 : ℚ) ≤ (T : ℚ) * calculateAnnualDiscount T / 5 := by positivity
  have hfloor0 : 0 ≤ Int.floor ((T : ℚ) * calculateAnnualDiscount T / 5) :=
    Int.floor_nonneg.mpr hraw0
  have hfloorle := Int.floor_le ((T : ℚ) * calculateAnnualDiscount T / 5)
  have hamount : (getAnnualPricingData T).discountAmount =
      Int.floor ((T : ℚ) * calculateAnnualDiscount T / 5) * 5 := rfl
  have hrate : (getAnnualPricingData T).discountedRate =
      T - (getAnnualPricingData T).discountAmount := rfl
  have hprod : (T : ℚ) * calculateAnnualDiscount T ≤ (T : ℚ) / 4 := by
    have := mul_le_mul_of_nonneg_left hp1 hTq
    linarith
  have ha0 : 0 ≤ (getAnnualPricingData T).discountAmount := by
    rw [hamount]; omega
  have haq : ((getAnnualPricingData T).discountAmount : ℚ) ≤ (T : ℚ) / 4 := by
    rw [hamount]; push_cast; linarith
  refine ⟨ha0, haq, ?_, ?_, ?_⟩
  · rw [hrate]; push_cast; linarith
  · rw [hrate]; omega
  · intro h5
    rw [hrate]
    have h5a : (5 : Int) ∣ (getAnnualPricingData T).discountAmount := by
      rw [hamount]; exact Dvd.intro_left _ rfl
    exact Int.dvd_sub h5 h5a

/-- Witness of C28 at a total of 1000, a multiple of 5, where the discount is
12%. -/
theorem getAnnualPricingData_bounds_witness :
    (0 : Int) ≤ 1000 ∧ (5 : Int) ∣ 1000 ∧
    (getAnnualPricingData 1000).discountedRate ≤ 1000 ∧
    5 ∣ (getAnnualPricingData 1000).discountedRate :=
  ⟨by decide, by decide, (getAnnualPricingData_bounds 1000 (by decide)).2.2.2.1,
   (getAnnualPricingData_bounds 1000 (by decide)).2.2.2.2 (by decide)⟩

/-! ## The available months of an account -/

/-- In a list without repetition, the elements from position `s` on that are
among the first `R` are the first `R` elements without the first `s`. -/
theorem filter_drop_mem_take (l : List String) (hl : l.Nodup) : ∀ s R : Nat,
    (l.drop s).filter (fun m => decide (m ∈ l.take R)) = (l.take R).drop s := by
  induction l with
  | nil => intro s R; simp
  | cons x t ih =>
    intro s R
    have hx : x ∉ t := (List.nodup_cons.mp hl).1
    have ht : t.Nodup := (List.nodup_cons.mp hl).2
    cases R with
    | zero => simp
    | succ R' =>
      have hcongr : ∀ u : List String, (∀ m ∈ u, m ∈ t) →
          u.filter (fun m => decide (m ∈ x :: t.take R')) =
            u.filter (fun m => decide (m ∈ t.take R')) := by
        intro u hu
        apply List.filter_congr
        intro m hm
        have hne : m ≠ x := fun h => hx (h ▸ hu m hm)
        simp [hne]
      cases s with
      | zero =>
        simp only [List.drop_zero, List.take_succ_cons]
        rw [List.filter_cons_of_pos (by simp), hcongr t (fun m hm => hm)]
        have h := ih ht 0 R'
        simp only [List.drop_zero] at h
        rw [h]
      | succ s' =>
        simp only [List.drop_succ_cons, List.take_succ_cons]
        rw [hcongr (t.drop s') (fun m hm => List.mem_of_mem_drop hm)]
        exact ih ht s' R'

/-- Filtering the positions counted from `a` by a test on `s` plus the position
is filtering the positions counted from `s + a`. -/
theorem enumFrom_filter_shift {α : Type} (q : Nat → Bool) (s : Nat) (xs : List α) :
    ∀ a : Nat,
    ((xs.enumFrom a).filter (fun p => q (s + p.1))).map Prod.snd =
      ((xs.enumFrom (s + a)).filter (fun p => q p.1)).map Prod.snd := by
  induction xs with
  | nil => intro a; simp
  | cons x t ih =>
    intro a
    have h := ih (a + 1)
    have harg : s + (a + 1) = s + a + 1 := by omega
    rw [harg] at h
    simp only [List.enumFrom_cons, List.filter_cons]
    cases q (s + a) <;> simp [h]

/-- The positions of the first `R` elements without the first `s`, filtered by a
test, are the positions of the whole list between `s` and `R`, filtered by the
test. -/
theorem enumFrom_take_drop_filter {α : Type} (q : Nat → Bool) (l : List α) :
    ∀ n s R : Nat,
    ((((l.take R).drop s).enumFrom (n + s)).filter (fun p => q p.1)).map Prod.snd =
      ((l.enumFrom n).filter
        (fun p => decide (n + s ≤ p.1) && decide (p.1 < n + R) && q p.1)).map Prod.snd := by
  induction l with
  | nil => intro n s R; simp
  | cons x t ih =>
    intro n s R
    cases R with
    | zero =>
      have hnil : ((x :: t).enumFrom n).filter
          (fun p => decide (n + s ≤ p.1) && decide (p.1 < n + 0) && q p.1) = [] := by
        rw [List.filter_eq_nil_iff]
        intro p hp
        have hle := List.le_fst_of_mem_enumFrom hp
        intro hcontra
        simp only [Bool.and_eq_true, decide_eq_true_eq] at hcontra
        omega
      rw [hnil]
      simp
    | succ R' =>
      cases s with
      | zero =>
        have h := ih (n + 1) 0 R'
        simp only [List.drop_zero, Nat.add_zero] at h
        simp only [List.take_succ_cons, List.drop_zero, Nat.add_zero, List.enumFrom_cons,
          List.filter_cons]
        have htail : (t.enumFrom (n + 1)).filter
            (fun p => decide (n ≤ p.1) && decide (p.1 < n + (R' + 1)) && q p.1) =
            (t.enumFrom (n + 1)).filter
            (fun p => decide (n + 1 ≤ p.1) && decide (p.1 < n + 1 + R') && q p.1) := by
          apply List.filter_congr
          intro p hp
          have hle := List.le_fst_of_mem_enumFrom hp
          have h1 : decide (n ≤ p.1) = decide (n + 1 ≤ p.1) := by
            rw [decide_eq_decide]; omega
          have h2 : decide (p.1 < n + (R' + 1)) = decide (p.1 < n + 1 + R') := by
            rw [decide_eq_decide]; omega
          rw [h1, h2]
        have hhead : (decide (n ≤ n) && decide (n < n + (R' + 1)) && q n) = q n := by
          have h1 : decide (n ≤ n) = true := by simp
          have h2 : decide (n < n + (R' + 1)) = true := by
            rw [decide_eq_true_eq]; omega
          rw [h1, h2]; simp
        rw [htail, hhead]
        cases hq : q n
        · simp only [Bool.false_eq_true, if_false]
          exact h
        · simp only [if_true, List.map_cons]
          rw [h]
      | succ s' =>
        have h := ih (n + 1) s' R'
        have harg : n + (s' + 1) = n + 1 + s' := by omega
        simp only [List.take_succ_cons, List.drop_succ_cons, List.enumFrom_cons,
          List.filter_cons]
        rw [harg, h]
        have hhead : (decide (n + 1 + s' ≤ n) && decide (n < n + (R' + 1)) && q n) = false := by
          have h1 : decide (n + 1 + s' ≤ n) = false := by
            rw [decide_eq_false_iff_not]; omega
          rw [h1]; simp
        rw [hhead]
        simp only [Bool.false_eq_true, if_false]
        congr 1
        apply List.filter_congr
        intro p hp
        have h2 : decide (p.1 < n + 1 + R') = decide (p.1 < n + (R' + 1)) := by
          rw [decide_eq_decide]; omega
        rw [h2]

/-- The relevant months of a frequency are the first months of the year. -/
theorem getRelevantMonths_eq_take (frequency : String) (currentMonth : Nat) :
    getRelevantMonths frequency currentMonth =
      months.take (relevantCount frequency currentMonth) := by
  unfold getRelevantMonths relevantCount
  by_cases h1 : frequency = "annual"
  · simp only [h1, if_true]; rfl
  · by_cases h2 : currentMonth ≤ 2
    · simp only [h1, h2, if_false, if_true, decide_True]; rfl
    · simp only [h1, h2, if_false, decide_False, Bool.false_eq_true]

/-- The available months of an account whose relevant months are the first `R`
months of the year. -/
theorem getAvailableMonths_eq (account : Account) (frequency : String) (currentMonth R : Nat)
    (hrel : getRelevantMonths frequency currentMonth = months.take R) :
    getAvailableMonths account frequency currentMonth =
      specAvailableMonths (getStartingMonthIndex account.startingMonth) R
        account.removedMonths := by
  unfold getAvailableMonths specAvailableMonths
  simp only []
  rw [hrel, filter_drop_mem_take months (by decide)]
  have h1 := enumFrom_filter_shift (fun i => decide (i ∉ account.removedMonths))
    (getStartingMonthIndex account.startingMonth)
    ((months.take R).drop (getStartingMonthIndex account.startingMonth)) 0
  have h2 := enumFrom_take_drop_filter (fun i => decide (i ∉ account.removedMonths)) months 0
    (getStartingMonthIndex account.startingMonth) R
  simp only [Nat.zero_add, Nat.add_zero] at h1 h2
  show List.map Prod.snd (List.filter _ (List.enumFrom 0 _)) =
    List.map Prod.snd (List.filter _ (List.enumFrom 0 months))
  rw [← h2, ← h1]

/-- C23: for every account with starting month index `s` (0 when no starting
month is set) and every frequency whose relevant months are the first `R`
calendar months, `getAvailableMonths` returns, in calendar order, exactly the
months with index `i` such that `s ≤ i < R` and `i` is not in `removedMonths`;
the relevant months of every frequency are of this form. -/
theorem getAvailableMonths_spec (account : Account) (frequency : String)
    (currentMonth R : Nat) :
    (getRelevantMonths frequency currentMonth = months.take R →
      getAvailableMonths account frequency currentMonth =
        (months.enum.filter fun p =>
          decide (getStartingMonthIndex account.startingMonth ≤ p.1) && decide (p.1 < R) &&
            decide (p.1 ∉ account.removedMonths)).map Prod.snd) ∧
    getRelevantMonths frequency currentMonth =
      months.take (relevantCount frequency currentMonth) ∧
    getStartingMonthIndex "" = 0 ∧
    (∀ p ∈ months.enum, getStartingMonthIndex p.2 = p.1) := by
  refine ⟨?_, getRelevantMonths_eq_take frequency currentMonth, by decide, by decide⟩
  intro hrel
  exact getAvailableMonths_eq account frequency currentMonth R hrel

/-- Witness of C23: an account that starts in March, with June removed, seen in
August by the monthly service, whose relevant months are the first 7. -/
theorem getAvailableMonths_spec_witness :
    getRelevantMonths "monthly" 7 = months.take 7 ∧
    getAvailableMonths { marchAccount with removedMonths := [5] } "monthly" 7 =
      ["March", "April", "May", "July"] ∧
    getAvailableMonths { marchAccount with removedMonths := [5] } "monthly" 7 =
      (months.enum.filter fun p =>
        decide (getStartingMonthIndex "March" ≤ p.1) && decide (p.1 < 7) &&
          decide (p.1 ∉ [5])).map Prod.snd :=
  ⟨by decide, by decide,
   (getAvailableMonths_spec { marchAccount with removedMonths := [5] } "monthly" 7 7).1
     (by decide)⟩

/-! ## Removing a month -/

/-- The elements of a list added to a set one by one. -/
theorem mem_foldl_unique (xs : List Nat) (j : Nat) : ∀ set : List Nat,
    j ∈ xs.foldl (fun set x => if x ∈ set then set else set ++ [x]) set ↔
      j ∈ set ∨ j ∈ xs := by
  induction xs with
  | nil => intro set; simp
  | cons x rest ih =>
    intro set
    rw [List.foldl_cons, ih]
    by_cases hx : x ∈ set
    · rw [if_pos hx]
      constructor
      · rintro (h | h)
        · exact Or.inl h
        · exact Or.inr (List.mem_cons_of_mem _ h)
      · rintro (h | h)
        · exact Or.inl h
        · rcases List.mem_cons.mp h with rfl | h
          · exact Or.inl hx
          · exact Or.inr h
    · rw [if_neg hx]
      simp only [List.mem_append, List.mem_singleton, List.mem_cons]
      tauto

/-- The array made from a set has the elements of the list it was made of. -/
theorem mem_uniqueIndices (xs : List Nat) (j : Nat) : j ∈ uniqueIndices xs ↔ j ∈ xs := by
  unfold uniqueIndices
  rw [mem_foldl_unique]
  simp

/-- In a list without repetition, the element at position `i` is found at
position `i - s` among the first `R` elements without the first `s`. -/
theorem findIdx?_take_drop (l : List String) (hl : l.Nodup) (m : String) :
    ∀ s R i : Nat, s ≤ i → i < R → l[i]? = some m →
      ((l.take R).drop s).findIdx? (fun x => decide (x = m)) = some (i - s) := by
  induction l with
  | nil => intro s R i _ _ h; simp at h
  | cons x t ih =>
    intro s R i hsi hiR hget
    have hx : x ∉ t := (List.nodup_cons.mp hl).1
    have ht : t.Nodup := (List.nodup_cons.mp hl).2
    cases R with
    | zero => omega
    | succ R' =>
      cases i with
      | zero =>
        have hs : s = 0 := by omega
        subst hs
        simp only [List.getElem?_cons_zero, Option.some.injEq] at hget
        subst hget
        simp
      | succ i' =>
        simp only [List.getElem?_cons_succ] at hget
        have hmem : m ∈ t := List.getElem?_mem hget
        have hne : x ≠ m := fun h => hx (h ▸ hmem)
        cases s with
        | zero =>
          have h := ih ht 0 R' i' (Nat.zero_le _) (by omega) hget
          simp only [List.drop_zero, Nat.sub_zero] at h
          simp only [List.take_succ_cons, List.drop_zero, List.findIdx?_cons, hne,
            decide_False, Bool.false_eq_true, if_false, Nat.zero_add, Nat.sub_zero]
          rw [List.findIdx?_succ, h]
          rfl
        | succ s' =>
          have h := ih ht s' R' i' (by omega) (by omega) hget
          simp only [List.take_succ_cons, List.drop_succ_cons]
          rw [h]
          congr 1
          omega

/-- The account is unchanged when the month is not among its periods. -/
theorem handleRemoveMonth_of_not_mem (frequency : String) (currentMonth : Nat) (acc : Account)
    (monthName : String)
    (h : monthName ∉ (getRelevantMonths frequency currentMonth).drop
      (getStartingMonthIndex acc.startingMonth)) :
    handleRemoveMonth frequency currentMonth acc monthName = acc := by
  have hnone : ((getRelevantMonths frequency currentMonth).drop
      (getStartingMonthIndex acc.startingMonth)).findIdx?
        (fun m => decide (m = monthName)) = none := by
    rw [List.findIdx?_eq_none_iff]
    intro x hx
    have hne : x ≠ monthName := fun e => h (e ▸ hx)
    simp [hne]
  unfold handleRemoveMonth
  simp only [hnone]

/-- The account after the removal of a month found at position `k` of its
periods. -/
theorem handleRemoveMonth_of_found (frequency : String) (currentMonth : Nat) (acc : Account)
    (monthName : String) (k : Nat)
    (h : ((getRelevantMonths frequency currentMonth).drop
      (getStartingMonthIndex acc.startingMonth)).findIdx?
        (fun m => decide (m = monthName)) = some k) :
    handleRemoveMonth frequency currentMonth acc monthName =
      { acc with removedMonths := uniqueIndices (acc.removedMonths ++
          List.range' (getStartingMonthIndex acc.startingMonth + k)
            (12 - (getStartingMonthIndex acc.startingMonth + k))) } := by
  unfold handleRemoveMonth
  simp only [h]

/-- The removed months after the removal of a month found at position `k`. -/
theorem mem_removedMonths_of_found (frequency : String) (currentMonth : Nat) (acc : Account)
    (monthName : String) (k : Nat)
    (h : ((getRelevantMonths frequency currentMonth).drop
      (getStartingMonthIndex acc.startingMonth)).findIdx?
        (fun m => decide (m = monthName)) = some k) (j : Nat) :
    j ∈ (handleRemoveMonth frequency currentMonth acc monthName).removedMonths ↔
      j ∈ acc.removedMonths ∨
        (getStartingMonthIndex acc.startingMonth + k ≤ j ∧ j < 12) := by
  rw [handleRemoveMonth_of_found frequency currentMonth acc monthName k h]
  simp only [mem_uniqueIndices, List.mem_append, List.mem_range'_1]
  constructor
  · rintro (h1 | ⟨h1, h2⟩)
    · exact Or.inl h1
    · exact Or.inr ⟨h1, by omega⟩
  · rintro (h1 | ⟨h1, h2⟩)
    · exact Or.inl h1
    · exact Or.inr ⟨h1, by omega⟩

/-- The position at which `handleRemoveMonth` finds a month of the calendar that
is among the periods of the account. -/
theorem findIdx?_of_period (frequency : String) (currentMonth : Nat) (acc : Account)
    (monthName : String) (i : Nat) (hget : months[i]? = some monthName)
    (hs : getStartingMonthIndex acc.startingMonth ≤ i)
    (hR : i < relevantCount frequency currentMonth) :
    ((getRelevantMonths frequency currentMonth).drop
      (getStartingMonthIndex acc.startingMonth)).findIdx?
        (fun m => decide (m = monthName)) =
      some (i - getStartingMonthIndex acc.startingMonth) := by
  rw [getRelevantMonths_eq_take]
  exact findIdx?_take_drop months (by decide) monthName _ _ i hs hR hget

/-- C21: the set of removed months of an account only grows and stays closed
upward: for every account and month name, the `removedMonths` that
`handleRemoveMonth` produces contains the previous one; if the previous one
contained every index from its smallest element up to 11, so does the new one;
removing a month of the calendar that is among the periods of the account
removes it and every later month; and when the month is not among the periods
of the account, the account is unchanged. -/
theorem handleRemoveMonth_removedMonths (frequency : String) (currentMonth : Nat)
    (acc : Account) (monthName : String) :
    (∀ i ∈ acc.removedMonths,
      i ∈ (handleRemoveMonth frequency currentMonth acc monthName).removedMonths) ∧
    (ContainsFromSmallest acc.removedMonths →
      ContainsFromSmallest
        (handleRemoveMonth frequency currentMonth acc monthName).removedMonths) ∧
    (∀ i : Nat, months[i]? = some monthName →
      getStartingMonthIndex acc.startingMonth ≤ i →
      i < relevantCount frequency currentMonth →
      ∀ j : Nat, i ≤ j → j ≤ 11 →
        j ∈ (handleRemoveMonth frequency currentMonth acc monthName).removedMonths) ∧
    (monthName ∉ (getRelevantMonths frequency currentMonth).drop
        (getStartingMonthIndex acc.startingMonth) →
      handleRemoveMonth frequency currentMonth acc monthName = acc) := by
  refine ⟨?_, ?_, ?_, handleRemoveMonth_of_not_mem frequency currentMonth acc monthName⟩
  · intro i hi
    cases hfind : ((getRelevantMonths frequency currentMonth).drop
        (getStartingMonthIndex acc.startingMonth)).findIdx?
          (fun m => decide (m = monthName)) with
    | none =>
      have : handleRemoveMonth frequency currentMonth acc monthName = acc := by
        unfold handleRemoveMonth; simp only [hfind]
      rw [this]; exact hi
    | some k =>
      rw [mem_removedMonths_of_found frequency currentMonth acc monthName k hfind]
      exact Or.inl hi
  · intro hclosed
    cases hfind : ((getRelevantMonths frequency currentMonth).drop
        (getStartingMonthIndex acc.startingMonth)).findIdx?
          (fun m => decide (m = monthName)) with
    | none =>
      have : handleRemoveMonth frequency currentMonth acc monthName = acc := by
        unfold handleRemoveMonth; simp only [hfind]
      rw [this]; exact hclosed
    | some k =>
      intro smallest hsmallest hmin j hj1 hj2
      have hmem := mem_removedMonths_of_found frequency currentMonth acc monthName k hfind
      rw [hmem]
      rcases (hmem smallest).mp hsmallest with hprev | ⟨ha, _⟩
      · left
        apply hclosed smallest hprev _ j hj1 hj2
        intro i hi
        exact hmin i ((hmem i).mpr (Or.inl hi))
      · right
        exact ⟨by omega, by omega⟩
  · intro i hget hs hR j hij hj
    have hfind := findIdx?_of_period frequency currentMonth acc monthName i hget hs hR
    rw [mem_removedMonths_of_found frequency currentMonth acc monthName _ hfind]
    right
    exact ⟨by omega, by omega⟩

/-- Witness of C21: removing May from `marchAccount`, whose June to December are
removed already, adds the index of May and keeps the set closed upward. -/
theorem handleRemoveMonth_removedMonths_witness :
    (handleRemoveMonth "annual" 0 { marchAccount with removedMonths := [5, 6, 7, 8, 9, 10, 11] }
      "May").removedMonths = [5, 6, 7, 8, 9, 10, 11, 4] ∧
    ContainsFromSmallest
      (handleRemoveMonth "annual" 0 { marchAccount with removedMonths := [5, 6, 7, 8, 9, 10, 11] }
        "May").removedMonths ∧
    handleRemoveMonth "annual" 0 marchAccount "January" = marchAccount :=
  ⟨by decide,
   (handleRemoveMonth_removedMonths "annual" 0
      { marchAccount with removedMonths := [5, 6, 7, 8, 9, 10, 11] } "May").2.1
      (by
        intro smallest hs hmin j hj1 hj2
        have h5 : smallest = 5 := by
          have h := hmin 5 (by decide)
          simp only [List.mem_cons, List.mem_singleton, List.not_mem_nil, or_false] at hs
          omega
        subst h5
        simp only [List.mem_cons, List.mem_singleton, List.not_mem_nil, or_false]
        omega),
   (handleRemoveMonth_removedMonths "annual" 0 marchAccount "January").2.2.2 (by decide)⟩

/-- C30: for every account, frequency and month `m` that is among the available
months of the account, after `handleRemoveMonth` on `m` the available months are
exactly the previously available months that come strictly before `m` in
calendar order. -/
theorem getAvailableMonths_after_remove (frequency : String) (currentMonth : Nat)
    (acc : Account) (m : String)
    (hm : m ∈ getAvailableMonths acc frequency currentMonth) :
    getAvailableMonths (handleRemoveMonth frequency currentMonth acc m) frequency
        currentMonth =
      (getAvailableMonths acc frequency currentMonth).filter fun x =>
        decide (months.indexOf x < months.indexOf m) := by
  have hrel := getRelevantMonths_eq_take frequency currentMonth
  have hindex : ∀ p ∈ months.enum, months.indexOf p.2 = p.1 ∧ p.1 < 12 := by decide
  rw [getAvailableMonths_eq acc frequency currentMonth _ hrel] at hm ⊢
  unfold specAvailableMonths at hm
  obtain ⟨p, hp, hpm⟩ := List.mem_map.mp hm
  obtain ⟨hpenum, hpcond⟩ := List.mem_filter.mp hp
  simp only [Bool.and_eq_true, decide_eq_true_eq] at hpcond
  obtain ⟨⟨hps, hpR⟩, hprem⟩ := hpcond
  have hget : months[p.1]? = some m := by
    rw [← hpm]; exact List.mem_enum_iff_getElem?.mp hpenum
  have hidx : months.indexOf m = p.1 := by
    rw [← hpm]; exact (hindex p hpenum).1
  have hfind := findIdx?_of_period frequency currentMonth acc m p.1 hget hps hpR
  have hmem := mem_removedMonths_of_found frequency currentMonth acc m _ hfind
  have hstart : (handleRemoveMonth frequency currentMonth acc m).startingMonth =
      acc.startingMonth := by
    rw [handleRemoveMonth_of_found frequency currentMonth acc m _ hfind]
  rw [getAvailableMonths_eq _ frequency currentMonth _ hrel, hstart]
  unfold specAvailableMonths
  rw [List.filter_map, List.filter_filter]
  congr 1
  apply List.filter_congr
  intro r hr
  obtain ⟨hr1, hr2⟩ := hindex r hr
  rw [Bool.eq_iff_iff]
  simp only [Bool.and_eq_true, decide_eq_true_eq, Function.comp_apply, hmem, hr1, hidx]
  constructor
  · rintro ⟨⟨h1, h2⟩, h3⟩
    refine ⟨?_, ⟨h1, h2⟩, fun h => h3 (Or.inl h)⟩
    by_contra hlt
    exact h3 (Or.inr ⟨by omega, hr2⟩)
  · rintro ⟨h0, ⟨h1, h2⟩, h3⟩
    refine ⟨⟨h1, h2⟩, ?_⟩
    rintro (h | ⟨h, _⟩)
    · exact h3 h
    · omega

/-- Witness of C30: removing May from `marchAccount` under the annual service
leaves March and April. -/
theorem getAvailableMonths_after_remove_witness :
    "May" ∈ getAvailableMonths marchAccount "annual" 0 ∧
    getAvailableMonths (handleRemoveMonth "annual" 0 marchAccount "May") "annual" 0 =
      ["March", "April"] ∧
    getAvailableMonths (handleRemoveMonth "annual" 0 marchAccount "May") "annual" 0 =
      (getAvailableMonths marchAccount "annual" 0).filter fun x =>
        decide (months.indexOf x < months.indexOf "May") :=
  ⟨by decide, by decide,
   getAvailableMonths_after_remove "annual" 0 marchAccount "May" (by decide)⟩

/-! ## The sales tax rows of the PDF -/

/-- C24 fails on the code: for the rows of 5 and of 1 certificates the section
prices the second row at 75, with the counter shared by the rows, and the PDF
table prices it at 90, each row being priced on its own. -/
theorem pdf_rate_differs_from_section_rate :
    (getSalesTaxData salesTaxExample).map (fun row => row.certificates) = [5, 1] ∧
    sectionRates salesTaxExample = [450, 75] ∧
    pdfSalesTaxRates salesTaxExample = [some 450, some 90] ∧
    pdfSalesTaxRates salesTaxExample ≠ (sectionRates salesTaxExample).map some := by
  decide

/-! ## Removing an account -/

/-- C29 fails on the code: when only the third of three accounts was ever
flagged, on an initially empty array, the array has two holes below the flag;
removing the second account then drops the holes, so that the flag moves to the
first account and the third account, now the second, loses it. -/
theorem remove_account_moves_flag :
    handleNewAccountCheck [] 2 true =
      [FlagSlot.hole, FlagSlot.hole, FlagSlot.value true] ∧
    isNewAccount (readFlags (handleNewAccountCheck [] 2 true)) 0 = false ∧
    isNewAccount (readFlags (handleNewAccountCheck [] 2 true)) 2 = true ∧
    (handleRemoveAccount threeAccounts (handleNewAccountCheck [] 2 true) 1).1 =
      [{ initialAccount with bankName := "Ally Bank" },
       { initialAccount with bankName := "HSBC" }] ∧
    (handleRemoveAccount threeAccounts (handleNewAccountCheck [] 2 true) 1).2 =
      [FlagSlot.value true] ∧
    isNewAccount
      (readFlags (handleRemoveAccount threeAccounts (handleNewAccountCheck [] 2 true) 1).2)
      0 = true ∧
    isNewAccount
      (readFlags (handleRemoveAccount threeAccounts (handleNewAccountCheck [] 2 true) 1).2)
      1 = false := by
  decide

end InternalQuote
